import Mathlib

/-!
# Power-state driver (drivers/soc/qcom/power_state.c)

A shallow embedding of the Qualcomm power-state driver and a verification of
its specification against it.

The driver state lives in a `World`: the driver data (`power_state_drvdata`),
the kernel's firmware-assisted-suspend flag, the published uevents and a log
of the calls the driver makes on remote processors and of its writes to the
`ignore_ssr` flags.  The remote-processor framework is an `Env`: how handles
resolve, what `rproc_shutdown` / `rproc_boot` report, and which crash-restart
notifications the framework raises, synchronously, while such a call runs.
`BUG()` is an outcome of its own.

Registration (`power_state_probe`) and teardown (`power_state_remove`) work
on a `Platform`: the registry, the calls made on the crash-notification source
and the other resources the probe acquires.  What the platform gives to the
probe is a `ProbeEnv`.  The list walks of these two functions follow
`list_for_each_entry` and `list_del` of linux/list.h, with the loop cursor a
`Cursor`.
-/

namespace PowerState

/-! ## Constants -/

/-- The `enum power_states` of the driver. -/
inductive power_states where
  | ACTIVE
  | DEEPSLEEP
  | HIBERNATE
  deriving DecidableEq, Repr

/-- The constants of `linux/power_state.h`.  The driver includes this header
but it is not among the sources, so its values are a parameter of the model:
the ioctl command codes, the two orchestration classes and the event ids. -/
structure Header where
  LPM_ACTIVE : Nat
  POWER_STATE_LPM_ACTIVE : Nat
  ENTER_DEEPSLEEP : Nat
  POWER_STATE_ENTER_DEEPSLEEP : Nat
  ENTER_HIBERNATE : Nat
  POWER_STATE_ENTER_HIBERNATE : Nat
  EXIT_DEEPSLEEP_STATE : Nat
  POWER_STATE_EXIT_DEEPSLEEP_STATE : Nat
  EXIT_HIBERNATE_STATE : Nat
  POWER_STATE_EXIT_HIBERNATE_STATE : Nat
  MODEM_SUSPEND : Nat
  MODEM_EXIT : Nat
  POWER_STATE_MODEM_SUSPEND : Nat
  POWER_STATE_MODEM_EXIT : Nat
  ADSP_SUSPEND : Nat
  ADSP_EXIT : Nat
  POWER_STATE_ADSP_SUSPEND : Nat
  POWER_STATE_ADSP_EXIT : Nat
  SUBSYS_DEEPSLEEP : Nat
  SUBSYS_HIBERNATE : Nat
  MDSP_BEFORE_POWERDOWN : Int
  MDSP_AFTER_POWERUP : Int
  ADSP_BEFORE_POWERDOWN : Int
  ADSP_AFTER_POWERUP : Int
  CDSP_BEFORE_POWERDOWN : Int
  CDSP_AFTER_POWERUP : Int
  PREPARE_FOR_HIBERNATION : Int
  EXIT_HIBERNATE : Int
  EXIT_DEEP_SLEEP : Int

/-- The case labels of the `switch (cmd)` in `ps_ioctl`, in source order. -/
def Header.caseLabels (h : Header) : List Nat :=
  [h.LPM_ACTIVE, h.POWER_STATE_LPM_ACTIVE,
   h.ENTER_DEEPSLEEP, h.POWER_STATE_ENTER_DEEPSLEEP,
   h.ENTER_HIBERNATE, h.POWER_STATE_ENTER_HIBERNATE,
   h.EXIT_DEEPSLEEP_STATE, h.POWER_STATE_EXIT_DEEPSLEEP_STATE,
   h.EXIT_HIBERNATE_STATE, h.POWER_STATE_EXIT_HIBERNATE_STATE,
   h.MODEM_SUSPEND, h.MODEM_EXIT, h.POWER_STATE_MODEM_SUSPEND, h.POWER_STATE_MODEM_EXIT,
   h.ADSP_SUSPEND, h.ADSP_EXIT, h.POWER_STATE_ADSP_SUSPEND, h.POWER_STATE_ADSP_EXIT]

/-- The deprecated command codes: the labels of the no-op arm of `ps_ioctl`. -/
def Header.deprecatedLabels (h : Header) : List Nat :=
  [h.MODEM_SUSPEND, h.MODEM_EXIT, h.POWER_STATE_MODEM_SUSPEND, h.POWER_STATE_MODEM_EXIT,
   h.ADSP_SUSPEND, h.ADSP_EXIT, h.POWER_STATE_ADSP_SUSPEND, h.POWER_STATE_ADSP_EXIT]

/-- A header the driver compiles against: C requires the case labels of one
`switch` to be pairwise distinct. -/
def Header.WellFormed (h : Header) : Prop :=
  h.caseLabels.Nodup

instance (h : Header) : Decidable h.WellFormed := by
  unfold Header.WellFormed
  infer_instance

/-- One assignment of the header constants, used to instantiate the theorems
at concrete inputs. -/
def hdr : Header where
  LPM_ACTIVE := 1
  POWER_STATE_LPM_ACTIVE := 101
  ENTER_DEEPSLEEP := 2
  POWER_STATE_ENTER_DEEPSLEEP := 102
  ENTER_HIBERNATE := 3
  POWER_STATE_ENTER_HIBERNATE := 103
  EXIT_DEEPSLEEP_STATE := 8
  POWER_STATE_EXIT_DEEPSLEEP_STATE := 108
  EXIT_HIBERNATE_STATE := 9
  POWER_STATE_EXIT_HIBERNATE_STATE := 109
  MODEM_SUSPEND := 4
  MODEM_EXIT := 5
  POWER_STATE_MODEM_SUSPEND := 104
  POWER_STATE_MODEM_EXIT := 105
  ADSP_SUSPEND := 6
  ADSP_EXIT := 7
  POWER_STATE_ADSP_SUSPEND := 106
  POWER_STATE_ADSP_EXIT := 107
  SUBSYS_DEEPSLEEP := 0
  SUBSYS_HIBERNATE := 1
  MDSP_BEFORE_POWERDOWN := 1
  MDSP_AFTER_POWERUP := 2
  ADSP_BEFORE_POWERDOWN := 3
  ADSP_AFTER_POWERUP := 4
  CDSP_BEFORE_POWERDOWN := 5
  CDSP_AFTER_POWERUP := 6
  PREPARE_FOR_HIBERNATION := 7
  EXIT_HIBERNATE := 8
  EXIT_DEEP_SLEEP := 9

/-- The constant `STRING_LEN`, the size of the uevent buffer. -/
def STRING_LEN : Nat := 32

/-- The constant `ENODEV` of the kernel's errno table. -/
def ENODEV : Int := 19

/-- The constant `ENOIOCTLCMD` of the kernel's errno table. -/
def ENOIOCTLCMD : Int := 515

/-- The constant `NOTIFY_DONE` of linux/notifier.h. -/
def NOTIFY_DONE : Int := 0

/-- The constant `QCOM_SSR_AFTER_POWERUP` of `enum qcom_ssr_notify_type`. -/
def QCOM_SSR_AFTER_POWERUP : Nat := 1

/-- The constant `QCOM_SSR_BEFORE_SHUTDOWN` of `enum qcom_ssr_notify_type`. -/
def QCOM_SSR_BEFORE_SHUTDOWN : Nat := 2

/-- The constant `PM_HIBERNATION_PREPARE` of linux/suspend.h. -/
def PM_HIBERNATION_PREPARE : Nat := 1

/-- The constant `PM_POST_HIBERNATION` of linux/suspend.h. -/
def PM_POST_HIBERNATION : Nat := 2

/-- The constant `PM_SUSPEND_PREPARE` of linux/suspend.h. -/
def PM_SUSPEND_PREPARE : Nat := 3

/-- The constant `PM_POST_SUSPEND` of linux/suspend.h. -/
def PM_POST_SUSPEND : Nat := 4

/-- The constant `PM_RESTORE_PREPARE` of linux/suspend.h. -/
def PM_RESTORE_PREPARE : Nat := 5

/-- The constant `PM_POST_RESTORE` of linux/suspend.h. -/
def PM_POST_RESTORE : Nat := 6

/-! ## Data model -/

/-- The `struct subsystem_data`, without its list linkage: the registry is a
`List` of these, in registration order (`list_add_tail`). -/
structure subsystem_data where
  name : String
  ignore_ssr : Bool
  enter : Int
  exit : Int
  rproc_handle : Nat
  ssr_handle : Nat
  deriving DecidableEq, Repr

/-- The fields of `struct power_state_drvdata` the state machine uses:
`ps_ws_active` is whether the wakeup source `ps_ws` is held. -/
structure power_state_drvdata where
  ps_ws_active : Bool
  current_state : power_states
  sub_sys_list : List subsystem_data
  deriving DecidableEq, Repr

/-- What the driver does to the outside, and its own flag writes, in order.
`idx` is the position of the subsystem in the registry; `status` is what the
remote-processor call reports; `flags` are the `ignore_ssr` flags of the whole
registry as they stand while the call runs. -/
inductive Action where
  | write_ignore_ssr (idx : Nat) (v : Bool)
  | rproc_shutdown (idx : Nat) (name : String) (rproc : Nat) (status : Int) (flags : List Bool)
  | rproc_boot (idx : Nat) (name : String) (rproc : Nat) (status : Int) (flags : List Bool)
  | rproc_put (rproc : Nat)
  deriving DecidableEq, Repr

/-- The whole state: driver data, the kernel's firmware-assisted-suspend flag
(`pm_suspend_via_firmware()`), the uevent strings published so far and the
log of actions, both oldest first. -/
structure World where
  drv : power_state_drvdata
  suspend_via_firmware : Bool
  uevents : List String
  log : List Action
  deriving DecidableEq, Repr

/-- The remote-processor framework as the driver sees it: how a phandle
resolves (`none` is the NULL of `rproc_get_by_phandle`), what shutdown and boot
of a remote processor report, and the crash-restart notifications
`(name, opcode)` the framework delivers to `ps_ssr_cb` while that shutdown or
boot runs. -/
structure Env where
  rproc_get_by_phandle : Nat → Option Nat
  rproc_shutdown : Nat → Int
  rproc_boot : Nat → Int
  ssr_in_shutdown : Nat → List (String × Nat)
  ssr_in_boot : Nat → List (String × Nat)

/-- How a call ends: it returns a value, or it hits `BUG()`; either way with
the state reached. -/
inductive Outcome (α : Type) where
  | ret (v : α) (w : World)
  | bug (w : World)

/-- The state an outcome carries. -/
def Outcome.world {α : Type} : Outcome α → World
  | .ret _ w => w
  | .bug w => w

/-- The value a call returns, if it returns. -/
def Outcome.returned {α : Type} : Outcome α → Option α
  | .ret v _ => some v
  | .bug _ => none

/-- Whether the call hit `BUG()`. -/
def Outcome.isBug {α : Type} : Outcome α → Bool
  | .ret _ _ => false
  | .bug _ => true

/-! ## Event emission -/

/-- The kernel's `scnprintf` on an already formatted text: at most `size - 1`
characters are stored (the last byte is the terminator). -/
def scnprintf (size : Nat) (s : String) : String :=
  s.take (size - 1)

/-- The string `send_uevent` formats into `event_string`. -/
def event_string (event : Int) : String :=
  scnprintf STRING_LEN ("POWER_STATE_EVENT = " ++ toString event)

/-- The `send_uevent` of the driver: publish the formatted string.  Its
result is ignored by every caller. -/
def send_uevent (w : World) (event : Int) : World :=
  { w with uevents := w.uevents ++ [event_string event] }

/-! ## Crash-restart notifications -/

/-- The `ps_ssr_cb` of the driver: the first subsystem with the notified name
is looked up; the notification is dropped when there is none or when its
`ignore_ssr` is set. -/
def ps_ssr_cb (w : World) (opcode : Nat) (name : String) : Int × World :=
  match w.drv.sub_sys_list.find? (fun ss => ss.name == name) with
  | none => (NOTIFY_DONE, w)
  | some ss =>
    if ss.ignore_ssr then (NOTIFY_DONE, w)
    else if opcode = QCOM_SSR_BEFORE_SHUTDOWN then (NOTIFY_DONE, send_uevent w ss.enter)
    else if opcode = QCOM_SSR_AFTER_POWERUP then (NOTIFY_DONE, send_uevent w ss.exit)
    else (NOTIFY_DONE, w)

/-- The notifications raised while a remote-processor call runs, each handed
to `ps_ssr_cb` in turn. -/
def deliver_ssr (w : World) (ns : List (String × Nat)) : World :=
  ns.foldl (fun w n => (ps_ssr_cb w n.2 n.1).2) w

/-! ## Orchestration -/

/-- The `ignore_ssr` flags of the registry, in registration order. -/
def flags (w : World) : List Bool :=
  w.drv.sub_sys_list.map (fun ss => ss.ignore_ssr)

/-- Store `b` in the `ignore_ssr` of the entry at position `i`. -/
def set_ignore_ssr : List subsystem_data → Nat → Bool → List subsystem_data
  | [], _, _ => []
  | ss :: rest, 0, b => { ss with ignore_ssr := b } :: rest
  | ss :: rest, i + 1, b => ss :: set_ignore_ssr rest i b

/-- The assignment `ss_data->ignore_ssr = b` on the entry at position `i`. -/
def write_ignore_ssr (w : World) (i : Nat) (b : Bool) : World :=
  { w with
    drv := { w.drv with sub_sys_list := set_ignore_ssr w.drv.sub_sys_list i b }
    log := w.log ++ [Action.write_ignore_ssr i b] }

/-- The call `rproc_shutdown(rproc)`: what it reports is not read by the
driver; notifications raised meanwhile reach `ps_ssr_cb`. -/
def call_rproc_shutdown (env : Env) (w : World) (i : Nat) (ss : subsystem_data)
    (rproc : Nat) : World :=
  deliver_ssr
    { w with log := w.log ++
        [Action.rproc_shutdown i ss.name rproc (env.rproc_shutdown rproc) (flags w)] }
    (env.ssr_in_shutdown rproc)

/-- The call `rproc_boot(rproc)` and its result. -/
def call_rproc_boot (env : Env) (w : World) (i : Nat) (ss : subsystem_data)
    (rproc : Nat) : Int × World :=
  (env.rproc_boot rproc,
   deliver_ssr
    { w with log := w.log ++
        [Action.rproc_boot i ss.name rproc (env.rproc_boot rproc) (flags w)] }
    (env.ssr_in_boot rproc))

/-- The call `rproc_put(rproc)`. -/
def rproc_put (w : World) (rproc : Nat) : World :=
  { w with log := w.log ++ [Action.rproc_put rproc] }

/-- The `subsys_suspend` of the driver, on the entry at position `i`. -/
def subsys_suspend (h : Header) (env : Env) (w : World) (i : Nat) (ss : subsystem_data)
    (rproc : Nat) (state : Nat) : Int × World :=
  if state = h.SUBSYS_DEEPSLEEP ∨ state = h.SUBSYS_HIBERNATE then
    let w1 := write_ignore_ssr w i true
    let w2 := call_rproc_shutdown env w1 i ss rproc
    let w3 := write_ignore_ssr w2 i false
    (0, w3)
  else
    (-1, w)

/-- The `subsys_resume` of the driver, on the entry at position `i`. -/
def subsys_resume (h : Header) (env : Env) (w : World) (i : Nat) (ss : subsystem_data)
    (rproc : Nat) (state : Nat) : Int × World :=
  if state = h.SUBSYS_DEEPSLEEP ∨ state = h.SUBSYS_HIBERNATE then
    let w1 := write_ignore_ssr w i true
    let r := call_rproc_boot env w1 i ss rproc
    let w3 := write_ignore_ssr r.2 i false
    (r.1, w3)
  else
    (-1, w)

/-- The `list_for_each_entry` loop of `subsystem_suspend`, from position `i`
over the remaining entries; `ret` is the local of that name.  Only `name` and
`rproc_handle` of an entry are read, and nothing writes them. -/
def subsystem_suspend_loop (h : Header) (env : Env) (state : Nat) :
    Nat → List subsystem_data → Int → World → Outcome Int
  | _, [], ret, w => .ret ret w
  | i, ss :: rest, _, w =>
    match env.rproc_get_by_phandle ss.rproc_handle with
    | none => .ret (-ENODEV) w
    | some rproc =>
      let r := subsys_suspend h env w i ss rproc state
      if r.1 ≠ 0 then .bug r.2
      else subsystem_suspend_loop h env state (i + 1) rest r.1 (rproc_put r.2 rproc)

/-- The `subsystem_suspend` of the driver. -/
def subsystem_suspend (h : Header) (env : Env) (w : World) (state : Nat) : Outcome Int :=
  subsystem_suspend_loop h env state 0 w.drv.sub_sys_list 0 w

/-- The `list_for_each_entry` loop of `subsystem_resume`. -/
def subsystem_resume_loop (h : Header) (env : Env) (state : Nat) :
    Nat → List subsystem_data → Int → World → Outcome Int
  | _, [], ret, w => .ret ret w
  | i, ss :: rest, _, w =>
    match env.rproc_get_by_phandle ss.rproc_handle with
    | none => .ret (-ENODEV) w
    | some rproc =>
      let r := subsys_resume h env w i ss rproc state
      if r.1 ≠ 0 then .bug r.2
      else subsystem_resume_loop h env state (i + 1) rest r.1 (rproc_put r.2 rproc)

/-- The `subsystem_resume` of the driver. -/
def subsystem_resume (h : Header) (env : Env) (w : World) (state : Nat) : Outcome Int :=
  subsystem_resume_loop h env state 0 w.drv.sub_sys_list 0 w

/-! ## Control commands -/

/-- The assignment `drv->current_state = s`. -/
def set_current_state (w : World) (s : power_states) : World :=
  { w with drv := { w.drv with current_state := s } }

/-- The `pm_suspend_clear_flags()` of the kernel. -/
def pm_suspend_clear_flags (w : World) : World :=
  { w with suspend_via_firmware := false }

/-- The `pm_set_suspend_via_firmware()` of the kernel. -/
def pm_set_suspend_via_firmware (w : World) : World :=
  { w with suspend_via_firmware := true }

/-- The `__pm_relax(drv->ps_ws)` of the kernel. -/
def pm_relax (w : World) : World :=
  { w with drv := { w.drv with ps_ws_active := false } }

/-- The `__pm_stay_awake(drv->ps_ws)` of the kernel. -/
def pm_stay_awake (w : World) : World :=
  { w with drv := { w.drv with ps_ws_active := true } }

/-- The `ps_ioctl` of the driver; the `switch` is read arm by arm. -/
def ps_ioctl (h : Header) (env : Env) (w : World) (cmd : Nat) : Outcome Int :=
  if cmd = h.LPM_ACTIVE ∨ cmd = h.POWER_STATE_LPM_ACTIVE then
    let w1 := if w.suspend_via_firmware then pm_relax (pm_suspend_clear_flags w) else w
    .ret 0 (set_current_state w1 .ACTIVE)
  else if cmd = h.ENTER_DEEPSLEEP ∨ cmd = h.POWER_STATE_ENTER_DEEPSLEEP then
    match subsystem_suspend h env w h.SUBSYS_DEEPSLEEP with
    | .bug w1 => .bug w1
    | .ret r w1 => .ret r (set_current_state w1 .DEEPSLEEP)
  else if cmd = h.ENTER_HIBERNATE ∨ cmd = h.POWER_STATE_ENTER_HIBERNATE then
    match subsystem_suspend h env w h.SUBSYS_HIBERNATE with
    | .bug w1 => .bug w1
    | .ret r w1 => .ret r (set_current_state w1 .HIBERNATE)
  else if cmd = h.EXIT_DEEPSLEEP_STATE ∨ cmd = h.POWER_STATE_EXIT_DEEPSLEEP_STATE then
    subsystem_resume h env w h.SUBSYS_DEEPSLEEP
  else if cmd = h.EXIT_HIBERNATE_STATE ∨ cmd = h.POWER_STATE_EXIT_HIBERNATE_STATE then
    subsystem_resume h env w h.SUBSYS_HIBERNATE
  else if cmd = h.MODEM_SUSPEND ∨ cmd = h.MODEM_EXIT ∨ cmd = h.POWER_STATE_MODEM_SUSPEND
      ∨ cmd = h.POWER_STATE_MODEM_EXIT ∨ cmd = h.ADSP_SUSPEND ∨ cmd = h.ADSP_EXIT
      ∨ cmd = h.POWER_STATE_ADSP_SUSPEND ∨ cmd = h.POWER_STATE_ADSP_EXIT then
    .ret 0 w
  else
    .ret (-ENOIOCTLCMD) w

/-! ## Power-management notifications -/

/-- The `ps_pm_cb` of the driver. -/
def ps_pm_cb (h : Header) (w : World) (event : Nat) : Int × World :=
  if event = PM_SUSPEND_PREPARE then
    if w.drv.current_state = .DEEPSLEEP then (NOTIFY_DONE, pm_set_suspend_via_firmware w)
    else (NOTIFY_DONE, w)
  else if event = PM_POST_SUSPEND then
    if w.suspend_via_firmware then
      (NOTIFY_DONE, send_uevent (pm_stay_awake w) h.EXIT_DEEP_SLEEP)
    else (NOTIFY_DONE, w)
  else if event = PM_HIBERNATION_PREPARE then
    (NOTIFY_DONE, set_current_state (send_uevent w h.PREPARE_FOR_HIBERNATION) .HIBERNATE)
  else if event = PM_RESTORE_PREPARE then
    (NOTIFY_DONE, w)
  else if event = PM_POST_HIBERNATION ∨ event = PM_POST_RESTORE then
    (NOTIFY_DONE, send_uevent w h.EXIT_HIBERNATE)
  else
    (NOTIFY_DONE, w)

/-! ## Observations on states and logs -/

/-- Every `ignore_ssr` flag of the registry is clear. -/
def AllClear (l : List subsystem_data) : Prop :=
  ∀ ss ∈ l, ss.ignore_ssr = false

instance (l : List subsystem_data) : Decidable (AllClear l) := by
  unfold AllClear
  infer_instance

/-- The flag vector of an `n`-entry registry in which the flag at position `i`
is set and every other flag is clear. -/
def only_flag (n i : Nat) : List Bool :=
  (List.range n).map (fun j => decide (j = i))

/-- The shutdown calls of a log, in order: registry position and name. -/
def shutdown_calls : List Action → List (Nat × String)
  | [] => []
  | .rproc_shutdown i name _ _ _ :: rest => (i, name) :: shutdown_calls rest
  | _ :: rest => shutdown_calls rest

/-- The boot calls of a log, in order: registry position and name. -/
def boot_calls : List Action → List (Nat × String)
  | [] => []
  | .rproc_boot i name _ _ _ :: rest => (i, name) :: boot_calls rest
  | _ :: rest => boot_calls rest

/-- The writes to `ignore_ssr` flags in a log, in order: position and value. -/
def flag_writes : List Action → List (Nat × Bool)
  | [] => []
  | .write_ignore_ssr i v :: rest => (i, v) :: flag_writes rest
  | _ :: rest => flag_writes rest

/-- The registry entries paired with their positions, counting from `i`. -/
def indexed (i : Nat) : List subsystem_data → List (Nat × String)
  | [] => []
  | ss :: rest => (i, ss.name) :: indexed (i + 1) rest

/-- The uevents one crash-restart notification `(name, opcode)` publishes on
registry `l`: what `ps_ssr_cb` appends. -/
def ssr_event (l : List subsystem_data) (n : String × Nat) : List String :=
  match l.find? (fun ss => ss.name == n.1) with
  | none => []
  | some ss =>
    if ss.ignore_ssr then []
    else if n.2 = QCOM_SSR_BEFORE_SHUTDOWN then [event_string ss.enter]
    else if n.2 = QCOM_SSR_AFTER_POWERUP then [event_string ss.exit]
    else []

/-- The uevents a run of notifications publishes on registry `l`. -/
def ssr_events (l : List subsystem_data) (ns : List (String × Nat)) : List String :=
  ns.flatMap (ssr_event l)

/-- A log in which flags are set only around remote-processor calls: it is a
run of blocks `ignore_ssr[i] = true; call on i; ignore_ssr[i] = false` (with
`rproc_put` in between), `i` a position of the `n`-entry registry, and while
the call on `i` runs exactly the flag at `i` is set. -/
def bracketed (n : Nat) : List Action → Bool
  | [] => true
  | .rproc_put _ :: rest => bracketed n rest
  | .write_ignore_ssr i true :: .rproc_shutdown j _ _ _ fl :: .write_ignore_ssr k false :: rest =>
    decide (i < n ∧ j = i ∧ k = i ∧ fl = only_flag n i) && bracketed n rest
  | .write_ignore_ssr i true :: .rproc_boot j _ _ _ fl :: .write_ignore_ssr k false :: rest =>
    decide (i < n ∧ j = i ∧ k = i ∧ fl = only_flag n i) && bracketed n rest
  | _ => false

/-- The registry with every flag cleared: the part of it that flag writes
cannot change. -/
def unflag (l : List subsystem_data) : List subsystem_data :=
  l.map (fun ss => { ss with ignore_ssr := false })

/-- Whether the handle of a registry entry resolves. -/
def resolves (env : Env) (ss : subsystem_data) : Bool :=
  (env.rproc_get_by_phandle ss.rproc_handle).isSome

/-- Whether the handle of a registry entry resolves to a remote processor
whose boot reports success. -/
def boots (env : Env) (ss : subsystem_data) : Bool :=
  match env.rproc_get_by_phandle ss.rproc_handle with
  | none => false
  | some rproc => decide (env.rproc_boot rproc = 0)

/-- The framework raises, while the shutdown or boot of the remote processor of
a registry entry runs, only notifications that name this entry. -/
def names_in_flight (env : Env) (l : List subsystem_data) : Prop :=
  ∀ ss ∈ l, ∀ rproc, env.rproc_get_by_phandle ss.rproc_handle = some rproc →
    (∀ n ∈ env.ssr_in_shutdown rproc, n.1 = ss.name)
      ∧ (∀ n ∈ env.ssr_in_boot rproc, n.1 = ss.name)

/-- Whether `state` is one of the two orchestration classes. -/
def valid_class (h : Header) (state : Nat) : Prop :=
  state = h.SUBSYS_DEEPSLEEP ∨ state = h.SUBSYS_HIBERNATE

instance (h : Header) (state : Nat) : Decidable (valid_class h state) := by
  unfold valid_class
  infer_instance

/-! ## Status attribute -/

/-- The table `power_state[]` of state names. -/
def power_state : power_states → String
  | .ACTIVE => "active"
  | .DEEPSLEEP => "deepsleep"
  | .HIBERNATE => "hibernate"

/-- The `state_show` of the driver: what it returns and what it leaves in the
buffer.  Its `strlen` is the length of the name: the names are ASCII. -/
def state_show (w : World) : Int × String :=
  let len := (power_state w.drv.current_state).length
  let out := scnprintf (len + 2) (power_state w.drv.current_state ++ "\n")
  (out.length, out)

/-! ## Sequences of entries into the driver -/

/-- One entry into the driver: a control command (with the framework as it
behaves during this command), a crash-restart notification, or a
power-management notification. -/
inductive Input where
  | ioctl (env : Env) (cmd : Nat)
  | ssr (opcode : Nat) (name : String)
  | pm (event : Nat)

/-- The driver handles one entry. -/
def step (h : Header) (w : World) : Input → Outcome Int
  | .ioctl env cmd => ps_ioctl h env w cmd
  | .ssr opcode name => .ret (ps_ssr_cb w opcode name).1 (ps_ssr_cb w opcode name).2
  | .pm event => .ret (ps_pm_cb h w event).1 (ps_pm_cb h w event).2

/-- The driver handles a sequence of entries, one after the other; `none` when
one of them ends in `BUG()`, after which nothing is handled any more. -/
def run (h : Header) : World → List Input → Option World
  | w, [] => some w
  | w, i :: rest =>
    match step h w i with
    | .ret _ w1 => run h w1 rest
    | .bug _ => none

/-- An earlier `PM_SUSPEND_PREPARE` of the sequence was handled while
`current_state` was DEEPSLEEP. -/
def prepared_in_deepsleep (h : Header) (w0 : World) (inputs : List Input) : Prop :=
  ∃ pre post w1, inputs = pre ++ Input.pm PM_SUSPEND_PREPARE :: post
    ∧ run h w0 pre = some w1 ∧ w1.drv.current_state = .DEEPSLEEP

/-! ## Registration and teardown -/

/-- The constant `ENOMEM` of the kernel's errno table. -/
def ENOMEM : Int := 12

/-- The table `event_data`: name, enter event, exit event. -/
def event_data (h : Header) : List (String × Int × Int) :=
  [("mpss", h.MDSP_BEFORE_POWERDOWN, h.MDSP_AFTER_POWERUP),
   ("lpass", h.ADSP_BEFORE_POWERDOWN, h.ADSP_AFTER_POWERUP),
   ("cdsp", h.CDSP_BEFORE_POWERDOWN, h.CDSP_AFTER_POWERUP)]

/-- What the platform gives for one configured subsystem: its name in
`qcom,subsys-name`; what `of_property_read_u32_index` returns for its
`qcom,rproc-handle` and the value it reads; whether `devm_kzalloc` of its
`subsystem_data` succeeds; and what `qcom_register_ssr_notifier` returns for
its name, an `ERR_PTR` (`.error`) or a handle (`.ok`). -/
structure ConfigEntry where
  name : String
  handle_ret : Int
  rproc_handle : Nat
  alloc_ok : Bool
  ssr : Except Int Nat

/-- What the platform gives to `power_state_probe`: whether the allocation of
the driver data succeeds, what `register_pm_notifier` returns, whether
`wakeup_source_register` succeeds, what `power_state_dev_init` returns, and
the configured subsystems in order (`subsys_count` is their number). -/
structure ProbeEnv where
  drv_alloc_ok : Bool
  pm_notifier_ret : Int
  ws_ok : Bool
  dev_init_ret : Int
  entries : List ConfigEntry

/-- A call on the crash-notification source. -/
inductive SsrCall where
  | register (name : String) (handle : Nat)
  | unregister (handle : Nat)
  deriving DecidableEq, Repr

/-- The resources `power_state_probe` acquires and `power_state_remove`
releases: the registry, the calls made on the crash-notification source
(oldest first), and whether the power-management notifier, the wakeup source
and the device nodes are registered and the driver data is set. -/
structure Platform where
  sub_sys_list : List subsystem_data
  ssr_calls : List SsrCall
  pm_notifier : Bool
  wakeup_source : Bool
  device : Bool
  drvdata : Bool
  deriving DecidableEq, Repr

/-- Nothing acquired yet. -/
def Platform.fresh : Platform :=
  { sub_sys_list := [], ssr_calls := [], pm_notifier := false, wakeup_source := false,
    device := false, drvdata := false }

/-- How `power_state_probe` or `power_state_remove` ends: it returns a value,
or it stops in an invalid memory access (a kernel oops); `unfinished` stands
for a loop that was cut short by the step bound of the model. -/
inductive Ending where
  | ret (v : Int) (p : Platform)
  | oops (p : Platform)
  | unfinished
  deriving DecidableEq, Repr

/-- The loop `for (j = 0; j < ARRAY_SIZE(event_data); j++)` of the probe: every
row of the table whose name is the subsystem's stores its events (there is no
`break`). -/
def lookup_events (h : Header) (ss : subsystem_data) : subsystem_data :=
  (event_data h).foldl
    (fun s row => if row.1 == s.name then { s with enter := row.2.1, exit := row.2.2 } else s)
    ss

/-- One round of the registration loop of `power_state_probe`: the new state,
or the value of `ret` and the state at `goto remove_ss`.  The
`subsystem_data` comes zeroed from `devm_kzalloc`. -/
def register_entry (h : Header) (p : Platform) (e : ConfigEntry) :
    Except (Int × Platform) Platform :=
  if e.handle_ret ≠ 0 then .error (e.handle_ret, p)
  else if e.alloc_ok = false then .error (-ENOMEM, p)
  else
    match e.ssr with
    | .error err => .error (err, p)
    | .ok handle =>
      let p1 := { p with ssr_calls := p.ssr_calls ++ [SsrCall.register e.name handle] }
      let ss := lookup_events h
        { name := e.name, ignore_ssr := false, enter := 0, exit := 0,
          rproc_handle := e.rproc_handle, ssr_handle := handle }
      if ss.enter = 0 then .error (-ENODEV, p1)
      else .ok { p1 with sub_sys_list := p1.sub_sys_list ++ [ss] }

/-- The registration loop of `power_state_probe` over the configured
subsystems. -/
def register_all (h : Header) : List ConfigEntry → Platform → Except (Int × Platform) Platform
  | [], p => .ok p
  | e :: rest, p =>
    match register_entry h p e with
    | .error x => .error x
    | .ok p1 => register_all h rest p1

/-- A value of the cursor `ss_data` of `list_for_each_entry`, as the list
pointer it stands for: the list head, the entry at a position of the list, or
`LIST_POISON1`. -/
inductive Cursor where
  | head
  | entry (i : Nat)
  | poison
  deriving DecidableEq, Repr

/-- The start of `list_for_each_entry`, `list_first_entry(head)`: on an empty
list `head->next` is the head itself. -/
def list_first (l : List subsystem_data) : Cursor :=
  match l with
  | [] => .head
  | _ :: _ => .entry 0

/-- The body of the unwinding loop on the entry at position `i`, and the step
`ss_data = list_next_entry(ss_data, list)` after it.  The body calls
`qcom_unregister_ssr_notifier(ss_data->ssr_handle, ..)` and then
`list_del(&ss_data->list)`; `list_del` unlinks the entry and stores
`LIST_POISON1` in its `next`, and the step reads that `next`. -/
def unregister_entry (p : Platform) (i : Nat) (ss : subsystem_data) : Platform × Cursor :=
  ({ p with
      ssr_calls := p.ssr_calls ++ [SsrCall.unregister ss.ssr_handle]
      sub_sys_list := p.sub_sys_list.eraseIdx i },
   Cursor.poison)

/-- How the walk of the unwinding loop ends. -/
inductive Walk where
  | done (p : Platform)
  | oops (p : Platform)
  | unfinished
  deriving DecidableEq, Repr

/-- The loop
`list_for_each_entry(ss_data, &drv->sub_sys_list, list) { unregister; list_del }`
of `power_state_probe` and `power_state_remove`, with a bound on its steps.
The loop ends when the cursor is the head.  `LIST_POISON1` is not the head, so
the body runs on it, and its read of `ss_data->ssr_handle` through that
pointer is an invalid access. -/
def unregister_loop : Nat → Cursor → Platform → Walk
  | _, .head, p => .done p
  | _, .poison, p => .oops p
  | 0, .entry _, _ => .unfinished
  | fuel + 1, .entry i, p =>
    match p.sub_sys_list[i]? with
    | none => .oops p
    | some ss => unregister_loop fuel (unregister_entry p i ss).2 (unregister_entry p i ss).1

/-- The label `remove_ss` of `power_state_probe` and what follows it. -/
def remove_ss (ret : Int) (p : Platform) : Ending :=
  match unregister_loop (p.sub_sys_list.length + 1) (list_first p.sub_sys_list) p with
  | .done p1 =>
    .ret ret { p1 with sub_sys_list := [], wakeup_source := false, pm_notifier := false }
  | .oops p1 => .oops p1
  | .unfinished => .unfinished

/-- The `power_state_probe` of the driver. -/
def power_state_probe (h : Header) (env : ProbeEnv) : Ending :=
  if env.drv_alloc_ok = false then .ret (-ENOMEM) Platform.fresh
  else if env.pm_notifier_ret ≠ 0 then .ret env.pm_notifier_ret Platform.fresh
  else if env.ws_ok = false then .ret env.pm_notifier_ret Platform.fresh
  else if env.dev_init_ret ≠ 0 then .ret env.dev_init_ret Platform.fresh
  else
    match register_all h env.entries
        { Platform.fresh with pm_notifier := true, wakeup_source := true, device := true } with
    | .ok p => .ret 0 { p with drvdata := true }
    | .error x => remove_ss x.1 x.2

/-- The `power_state_remove` of the driver. -/
def power_state_remove (p : Platform) : Ending :=
  match unregister_loop (p.sub_sys_list.length + 1) (list_first p.sub_sys_list) p with
  | .done p1 =>
    .ret 0 { p1 with
      sub_sys_list := [], wakeup_source := false, device := false, pm_notifier := false }
  | .oops p1 => .oops p1
  | .unfinished => .unfinished

/-- The state an ending carries, if the step bound of the model was not hit. -/
def Ending.reached : Ending → Option Platform
  | .ret _ p => some p
  | .oops p => some p
  | .unfinished => none

/-- The handles unregistered by the calls of a log, in order. -/
def unregistered : List SsrCall → List Nat
  | [] => []
  | .unregister handle :: rest => handle :: unregistered rest
  | _ :: rest => unregistered rest

/-- The names and handles registered by the calls of a log, in order. -/
def registered : List SsrCall → List (String × Nat)
  | [] => []
  | .register name handle :: rest => (name, handle) :: registered rest
  | _ :: rest => registered rest

/-! ## Sample inputs -/

/-- A registry entry for `name` with the given handle and events, flag clear. -/
def mkSub (name : String) (handle : Nat) (enter exit : Int) : subsystem_data :=
  { name := name, ignore_ssr := false, enter := enter, exit := exit,
    rproc_handle := handle, ssr_handle := handle }

/-- The registry `[mpss, lpass, cdsp]` with the events of `event_data`. -/
def registry3 : List subsystem_data :=
  [mkSub "mpss" 10 hdr.MDSP_BEFORE_POWERDOWN hdr.MDSP_AFTER_POWERUP,
   mkSub "lpass" 11 hdr.ADSP_BEFORE_POWERDOWN hdr.ADSP_AFTER_POWERUP,
   mkSub "cdsp" 12 hdr.CDSP_BEFORE_POWERDOWN hdr.CDSP_AFTER_POWERUP]

/-- The remote processor a sample handle resolves to serves the subsystem of
this name. -/
def sampleName (rproc : Nat) : String :=
  if rproc = 110 then "mpss" else if rproc = 111 then "lpass"
  else if rproc = 112 then "cdsp" else "none"

/-- A sample framework: the handles in `unresolved` do not resolve, every
other handle `p` resolves to remote processor `p + 100`; shutdown and boot of
the remote processors in `failing` report `-1`; a shutdown raises the
before-shutdown notification of its subsystem, a boot the after-powerup one. -/
def sampleEnv (unresolved failing : List Nat) : Env :=
  { rproc_get_by_phandle := fun p => if p ∈ unresolved then none else some (p + 100)
    rproc_shutdown := fun r => if r ∈ failing then -1 else 0
    rproc_boot := fun r => if r ∈ failing then -1 else 0
    ssr_in_shutdown := fun r => [(sampleName r, QCOM_SSR_BEFORE_SHUTDOWN)]
    ssr_in_boot := fun r => [(sampleName r, QCOM_SSR_AFTER_POWERUP)] }

/-- A configured subsystem for which every platform operation succeeds: the
phandle read is `handle`, the subscription handle is `handle + 200`. -/
def okEntry (name : String) (handle : Nat) : ConfigEntry :=
  { name := name, handle_ret := 0, rproc_handle := handle, alloc_ok := true,
    ssr := .ok (handle + 200) }

/-- A platform on which every operation of the probe succeeds, with the given
configured subsystems. -/
def okProbe (entries : List ConfigEntry) : ProbeEnv :=
  { drv_alloc_ok := true, pm_notifier_ret := 0, ws_ok := true, dev_init_ret := 0,
    entries := entries }

/-- The state after probe for a registry: Active, flag clear, nothing emitted. -/
def initWorld (l : List subsystem_data) : World :=
  { drv := { ps_ws_active := false, current_state := .ACTIVE, sub_sys_list := l },
    suspend_via_firmware := false, uevents := [], log := [] }

/-! ## Flag writes on the registry -/

theorem set_ignore_ssr_length (l : List subsystem_data) (i : Nat) (b : Bool) :
    (set_ignore_ssr l i b).length = l.length := by
  induction l generalizing i with
  | nil => rfl
  | cons ss rest ih =>
    cases i with
    | zero => rfl
    | succ i => simp [set_ignore_ssr, ih]

theorem set_ignore_ssr_append (pre post : List subsystem_data) (ss : subsystem_data) (b : Bool) :
    set_ignore_ssr (pre ++ ss :: post) pre.length b
      = pre ++ { ss with ignore_ssr := b } :: post := by
  induction pre with
  | nil => rfl
  | cons p pre ih => simp [set_ignore_ssr, ih]

theorem set_ignore_ssr_twice (l : List subsystem_data) (i : Nat) (a b : Bool) :
    set_ignore_ssr (set_ignore_ssr l i a) i b = set_ignore_ssr l i b := by
  induction l generalizing i with
  | nil => rfl
  | cons ss rest ih =>
    cases i with
    | zero => rfl
    | succ i => simp [set_ignore_ssr, ih]

theorem set_ignore_ssr_clear (l : List subsystem_data) (i : Nat) (hl : AllClear l) :
    set_ignore_ssr l i false = l := by
  induction l generalizing i with
  | nil => rfl
  | cons ss rest ih =>
    have hss : ss.ignore_ssr = false := hl ss (List.mem_cons_self _ _)
    have hrest : AllClear rest := fun x hx => hl x (List.mem_cons_of_mem _ hx)
    cases i with
    | zero =>
      cases ss
      simp_all [set_ignore_ssr]
    | succ i => simp [set_ignore_ssr, ih i hrest]

theorem only_flag_zero (i : Nat) : only_flag 0 i = [] := rfl

theorem only_flag_succ_zero (n : Nat) :
    only_flag (n + 1) 0 = true :: List.replicate n false := by
  simp only [only_flag, List.range_succ_eq_map, List.map_cons, List.map_map]
  simp [List.eq_replicate_iff]

theorem only_flag_succ_succ (n i : Nat) :
    only_flag (n + 1) (i + 1) = false :: only_flag n i := by
  simp only [only_flag, List.range_succ_eq_map, List.map_cons, List.map_map]
  simp [Function.comp_def]

theorem map_flag_of_clear (l : List subsystem_data) (hl : AllClear l) :
    l.map (fun ss => ss.ignore_ssr) = List.replicate l.length false := by
  induction l with
  | nil => rfl
  | cons ss rest ih =>
    have hss : ss.ignore_ssr = false := hl ss (List.mem_cons_self _ _)
    have hrest : AllClear rest := fun x hx => hl x (List.mem_cons_of_mem _ hx)
    simp [hss, ih hrest, List.replicate_succ]

theorem flags_set_true (l : List subsystem_data) (i : Nat) (hl : AllClear l) (hi : i < l.length) :
    (set_ignore_ssr l i true).map (fun ss => ss.ignore_ssr) = only_flag l.length i := by
  induction l generalizing i with
  | nil => simp at hi
  | cons ss rest ih =>
    have hrest : AllClear rest := fun x hx => hl x (List.mem_cons_of_mem _ hx)
    cases i with
    | zero =>
      simp [set_ignore_ssr, only_flag_succ_zero, map_flag_of_clear rest hrest]
    | succ i =>
      have hss : ss.ignore_ssr = false := hl ss (List.mem_cons_self _ _)
      have hi2 : i < rest.length := by simpa using hi
      simp [set_ignore_ssr, only_flag_succ_succ, hss, ih i hrest hi2]

/-! ## Notifications leave everything but the uevents alone -/

theorem ps_ssr_cb_eq (w : World) (opcode : Nat) (name : String) :
    ps_ssr_cb w opcode name
      = (NOTIFY_DONE,
          { w with uevents := w.uevents ++ ssr_event w.drv.sub_sys_list (name, opcode) }) := by
  cases w with
  | mk drv svf uev log =>
    simp only [ps_ssr_cb, ssr_event, send_uevent]
    cases drv.sub_sys_list.find? (fun ss => ss.name == name) with
    | none => simp
    | some ss =>
      by_cases h1 : ss.ignore_ssr = true
      · simp [h1]
      · by_cases h2 : opcode = QCOM_SSR_BEFORE_SHUTDOWN
        · simp [h1, h2]
        · by_cases h3 : opcode = QCOM_SSR_AFTER_POWERUP
          · simp only [if_neg h1, if_neg h2, if_pos h3]
          · simp [h1, h2, h3]

theorem deliver_ssr_eq (w : World) (ns : List (String × Nat)) :
    deliver_ssr w ns
      = { w with uevents := w.uevents ++ ssr_events w.drv.sub_sys_list ns } := by
  induction ns generalizing w with
  | nil =>
    cases w
    simp [deliver_ssr, ssr_events]
  | cons n ns ih =>
    have hstep : deliver_ssr w (n :: ns) = deliver_ssr (ps_ssr_cb w n.2 n.1).2 ns := rfl
    rw [hstep, ih, ps_ssr_cb_eq]
    simp [ssr_events, List.append_assoc]

/-! ## One subsystem: `subsys_suspend` and `subsys_resume` -/

theorem subsys_suspend_valid (h : Header) (env : Env) (w : World) (i : Nat)
    (ss : subsystem_data) (rproc state : Nat) (hs : valid_class h state) :
    subsys_suspend h env w i ss rproc state
      = (0,
          { drv := { w.drv with sub_sys_list := set_ignore_ssr w.drv.sub_sys_list i false }
            suspend_via_firmware := w.suspend_via_firmware
            uevents := w.uevents ++
              ssr_events (set_ignore_ssr w.drv.sub_sys_list i true) (env.ssr_in_shutdown rproc)
            log := w.log ++
              [Action.write_ignore_ssr i true,
               Action.rproc_shutdown i ss.name rproc (env.rproc_shutdown rproc)
                 ((set_ignore_ssr w.drv.sub_sys_list i true).map (fun s => s.ignore_ssr)),
               Action.write_ignore_ssr i false] }) := by
  unfold valid_class at hs
  simp only [subsys_suspend, if_pos hs, call_rproc_shutdown, deliver_ssr_eq, write_ignore_ssr,
    flags, set_ignore_ssr_twice]
  simp

theorem subsys_suspend_invalid (h : Header) (env : Env) (w : World) (i : Nat)
    (ss : subsystem_data) (rproc state : Nat) (hs : ¬ valid_class h state) :
    subsys_suspend h env w i ss rproc state = (-1, w) := by
  unfold valid_class at hs
  simp only [subsys_suspend, if_neg hs]

theorem subsys_resume_valid (h : Header) (env : Env) (w : World) (i : Nat)
    (ss : subsystem_data) (rproc state : Nat) (hs : valid_class h state) :
    subsys_resume h env w i ss rproc state
      = (env.rproc_boot rproc,
          { drv := { w.drv with sub_sys_list := set_ignore_ssr w.drv.sub_sys_list i false }
            suspend_via_firmware := w.suspend_via_firmware
            uevents := w.uevents ++
              ssr_events (set_ignore_ssr w.drv.sub_sys_list i true) (env.ssr_in_boot rproc)
            log := w.log ++
              [Action.write_ignore_ssr i true,
               Action.rproc_boot i ss.name rproc (env.rproc_boot rproc)
                 ((set_ignore_ssr w.drv.sub_sys_list i true).map (fun s => s.ignore_ssr)),
               Action.write_ignore_ssr i false] }) := by
  unfold valid_class at hs
  simp only [subsys_resume, if_pos hs, call_rproc_boot, deliver_ssr_eq, write_ignore_ssr,
    flags, set_ignore_ssr_twice]
  simp

theorem subsys_resume_invalid (h : Header) (env : Env) (w : World) (i : Nat)
    (ss : subsystem_data) (rproc state : Nat) (hs : ¬ valid_class h state) :
    subsys_resume h env w i ss rproc state = (-1, w) := by
  unfold valid_class at hs
  simp only [subsys_resume, if_neg hs]

/-- Whatever the class, `subsys_suspend` keeps the registry when its flags
were clear, and the rest of the driver data and the suspend flag always. -/
theorem subsys_suspend_drv (h : Header) (env : Env) (w : World) (i : Nat)
    (ss : subsystem_data) (rproc state : Nat) (hl : AllClear w.drv.sub_sys_list) :
    (subsys_suspend h env w i ss rproc state).2.drv = w.drv
      ∧ (subsys_suspend h env w i ss rproc state).2.suspend_via_firmware
          = w.suspend_via_firmware := by
  by_cases hs : valid_class h state
  · rw [subsys_suspend_valid h env w i ss rproc state hs]
    simp [set_ignore_ssr_clear _ i hl]
  · rw [subsys_suspend_invalid h env w i ss rproc state hs]
    simp

theorem subsys_resume_drv (h : Header) (env : Env) (w : World) (i : Nat)
    (ss : subsystem_data) (rproc state : Nat) (hl : AllClear w.drv.sub_sys_list) :
    (subsys_resume h env w i ss rproc state).2.drv = w.drv
      ∧ (subsys_resume h env w i ss rproc state).2.suspend_via_firmware
          = w.suspend_via_firmware := by
  by_cases hs : valid_class h state
  · rw [subsys_resume_valid h env w i ss rproc state hs]
    simp [set_ignore_ssr_clear _ i hl]
  · rw [subsys_resume_invalid h env w i ss rproc state hs]
    simp

/-! ## Log projections -/

theorem shutdown_calls_append (a b : List Action) :
    shutdown_calls (a ++ b) = shutdown_calls a ++ shutdown_calls b := by
  induction a with
  | nil => rfl
  | cons x a ih => cases x <;> simp [shutdown_calls, ih]

theorem boot_calls_append (a b : List Action) :
    boot_calls (a ++ b) = boot_calls a ++ boot_calls b := by
  induction a with
  | nil => rfl
  | cons x a ih => cases x <;> simp [boot_calls, ih]

theorem flag_writes_append (a b : List Action) :
    flag_writes (a ++ b) = flag_writes a ++ flag_writes b := by
  induction a with
  | nil => rfl
  | cons x a ih => cases x <;> simp [flag_writes, ih]

theorem indexed_append (i : Nat) (a b : List subsystem_data) :
    indexed i (a ++ b) = indexed i a ++ indexed (i + a.length) b := by
  induction a generalizing i with
  | nil => rfl
  | cons x a ih =>
    have e : i + 1 + a.length = i + (a.length + 1) := by omega
    show (i, x.name) :: indexed (i + 1) (a ++ b)
      = (i, x.name) :: indexed (i + 1) a ++ indexed (i + (a.length + 1)) b
    rw [ih (i + 1), e]
    rfl

theorem indexed_map_snd (i : Nat) (l : List subsystem_data) :
    (indexed i l).map Prod.snd = l.map (fun ss => ss.name) := by
  induction l generalizing i with
  | nil => rfl
  | cons x l ih => simp [indexed, ih]

theorem indexed_map_fst (i : Nat) (l : List subsystem_data) :
    (indexed i l).map Prod.fst = List.range' i l.length := by
  induction l generalizing i with
  | nil => rfl
  | cons x l ih => simp [indexed, ih, List.range'_succ]

theorem indexed_bound (i : Nat) (l : List subsystem_data) (p : Nat × String)
    (hp : p ∈ indexed i l) : i ≤ p.1 ∧ p.1 < i + l.length := by
  induction l generalizing i with
  | nil => simp [indexed] at hp
  | cons x l ih =>
    simp only [indexed, List.mem_cons] at hp
    rcases hp with hp | hp
    · subst hp
      simp
    · have := ih (i + 1) hp
      simp only [List.length_cons]
      omega

theorem unflag_set_ignore_ssr (l : List subsystem_data) (i : Nat) (b : Bool) :
    unflag (set_ignore_ssr l i b) = unflag l := by
  induction l generalizing i with
  | nil => rfl
  | cons ss rest ih =>
    cases i with
    | zero => simp [set_ignore_ssr, unflag]
    | succ i =>
      have := ih i
      simp only [unflag] at this
      simp [set_ignore_ssr, unflag, this]

/-! ## The suspend loop -/

theorem suspend_loop_drv (h : Header) (env : Env) (state : Nat) (rest : List subsystem_data) :
    ∀ (i : Nat) (ret : Int) (w : World), AllClear w.drv.sub_sys_list →
      (subsystem_suspend_loop h env state i rest ret w).world.drv = w.drv
        ∧ (subsystem_suspend_loop h env state i rest ret w).world.suspend_via_firmware
            = w.suspend_via_firmware := by
  induction rest with
  | nil =>
    intro i ret w _
    simp [subsystem_suspend_loop, Outcome.world]
  | cons ss rest ih =>
    intro i ret w hl
    simp only [subsystem_suspend_loop]
    cases hres : env.rproc_get_by_phandle ss.rproc_handle with
    | none => simp [Outcome.world]
    | some rproc =>
      obtain ⟨hd, hf⟩ := subsys_suspend_drv h env w i ss rproc state hl
      by_cases hr : (subsys_suspend h env w i ss rproc state).1 ≠ 0
      · simp only [if_pos hr, Outcome.world]
        exact ⟨hd, hf⟩
      · simp only [if_neg hr]
        have hl2 : AllClear (rproc_put (subsys_suspend h env w i ss rproc state).2 rproc).drv.sub_sys_list := by
          simp only [rproc_put, hd]
          exact hl
        obtain ⟨h1, h2⟩ := ih (i + 1) (subsys_suspend h env w i ss rproc state).1 _ hl2
        rw [h1, h2]
        simp [rproc_put, hd, hf]

theorem suspend_loop_frame (h : Header) (env : Env) (state : Nat) (rest : List subsystem_data) :
    ∀ (i : Nat) (ret : Int) (w : World),
      (subsystem_suspend_loop h env state i rest ret w).world.drv.current_state
          = w.drv.current_state
        ∧ (subsystem_suspend_loop h env state i rest ret w).world.drv.ps_ws_active
            = w.drv.ps_ws_active
        ∧ (subsystem_suspend_loop h env state i rest ret w).world.suspend_via_firmware
            = w.suspend_via_firmware
        ∧ unflag (subsystem_suspend_loop h env state i rest ret w).world.drv.sub_sys_list
            = unflag w.drv.sub_sys_list := by
  induction rest with
  | nil =>
    intro i ret w
    simp [subsystem_suspend_loop, Outcome.world]
  | cons ss rest ih =>
    intro i ret w
    simp only [subsystem_suspend_loop]
    cases hres : env.rproc_get_by_phandle ss.rproc_handle with
    | none => simp [Outcome.world]
    | some rproc =>
      by_cases hs : valid_class h state
      · have hstep := subsys_suspend_valid h env w i ss rproc state hs
        simp only [hstep, ne_eq, not_true_eq_false, if_false]
        obtain ⟨h1, h2, h3, h4⟩ := ih (i + 1) 0 (rproc_put _ rproc)
        rw [h1, h2, h3, h4]
        simp [rproc_put, unflag_set_ignore_ssr]
      · have hstep := subsys_suspend_invalid h env w i ss rproc state hs
        simp [hstep, Outcome.world]

theorem suspend_loop_bracketed (h : Header) (env : Env) (state n : Nat)
    (rest : List subsystem_data) :
    ∀ (i : Nat) (ret : Int) (w : World), AllClear w.drv.sub_sys_list →
      w.drv.sub_sys_list.length = n → i + rest.length ≤ n →
      ∃ new, (subsystem_suspend_loop h env state i rest ret w).world.log = w.log ++ new
        ∧ bracketed n new = true := by
  induction rest with
  | nil =>
    intro i ret w _ _ _
    exact ⟨[], by simp [subsystem_suspend_loop, Outcome.world], rfl⟩
  | cons ss rest ih =>
    intro i ret w hl hn hi
    simp only [subsystem_suspend_loop]
    cases hres : env.rproc_get_by_phandle ss.rproc_handle with
    | none => exact ⟨[], by simp [Outcome.world], rfl⟩
    | some rproc =>
      by_cases hs : valid_class h state
      · have hstep := subsys_suspend_valid h env w i ss rproc state hs
        have hdrv := (subsys_suspend_drv h env w i ss rproc state hl).1
        have e1 : (subsys_suspend h env w i ss rproc state).1 = 0 := by rw [hstep]
        have elog : (subsys_suspend h env w i ss rproc state).2.log = w.log ++
            [Action.write_ignore_ssr i true,
             Action.rproc_shutdown i ss.name rproc (env.rproc_shutdown rproc)
               ((set_ignore_ssr w.drv.sub_sys_list i true).map (fun s => s.ignore_ssr)),
             Action.write_ignore_ssr i false] := by rw [hstep]
        simp only [e1, ne_eq, not_true_eq_false, if_false]
        simp only [List.length_cons] at hi
        have hlt : i < w.drv.sub_sys_list.length := by omega
        obtain ⟨new, h1, h2⟩ := ih (i + 1) 0
          (rproc_put (subsys_suspend h env w i ss rproc state).2 rproc)
          (by simpa [rproc_put, hdrv] using hl)
          (by simpa [rproc_put, hdrv] using hn)
          (by omega)
        refine ⟨[Action.write_ignore_ssr i true,
               Action.rproc_shutdown i ss.name rproc (env.rproc_shutdown rproc)
                 ((set_ignore_ssr w.drv.sub_sys_list i true).map (fun s => s.ignore_ssr)),
               Action.write_ignore_ssr i false, Action.rproc_put rproc] ++ new, ?_, ?_⟩
        · rw [h1]
          simp [rproc_put, elog]
        · have hfl := flags_set_true _ i hl hlt
          rw [hn] at hfl
          have hin : i < n := by omega
          simp [bracketed, h2, hfl, hin]
      · have hstep := subsys_suspend_invalid h env w i ss rproc state hs
        exact ⟨[], by simp [hstep, Outcome.world], rfl⟩

theorem suspend_loop_run (h : Header) (env : Env) (state : Nat) (hs : valid_class h state)
    (rest : List subsystem_data) :
    ∀ (i : Nat) (w : World),
      subsystem_suspend_loop h env state i rest 0 w
          = .ret (if rest.all (resolves env) then 0 else -ENODEV)
              (subsystem_suspend_loop h env state i rest 0 w).world
        ∧ shutdown_calls (subsystem_suspend_loop h env state i rest 0 w).world.log
            = shutdown_calls w.log ++ indexed i (rest.takeWhile (resolves env))
        ∧ boot_calls (subsystem_suspend_loop h env state i rest 0 w).world.log
            = boot_calls w.log
        ∧ flag_writes (subsystem_suspend_loop h env state i rest 0 w).world.log
            = flag_writes w.log ++
                (indexed i (rest.takeWhile (resolves env))).flatMap
                  (fun p => [(p.1, true), (p.1, false)]) := by
  induction rest with
  | nil =>
    intro i w
    simp [subsystem_suspend_loop, Outcome.world, indexed]
  | cons ss rest ih =>
    intro i w
    simp only [subsystem_suspend_loop]
    cases hres : env.rproc_get_by_phandle ss.rproc_handle with
    | none =>
      have hnr : resolves env ss = false := by simp [resolves, hres]
      simp [Outcome.world, hnr, indexed]
    | some rproc =>
      have hr : resolves env ss = true := by simp [resolves, hres]
      have hstep := subsys_suspend_valid h env w i ss rproc state hs
      simp only [hstep, ne_eq, not_true_eq_false, if_false]
      obtain ⟨h1, h2, h3, h4⟩ := ih (i + 1) (rproc_put _ rproc)
      refine ⟨?_, ?_, ?_, ?_⟩
      · rw [h1]
        simp [Outcome.world, hr]
      · rw [h2]
        simp [rproc_put, shutdown_calls_append, shutdown_calls, hr, indexed]
      · rw [h3]
        simp [rproc_put, boot_calls_append, boot_calls]
      · rw [h4]
        simp [rproc_put, flag_writes_append, flag_writes, hr, indexed]

/-! ## The resume loop -/

theorem resume_loop_drv (h : Header) (env : Env) (state : Nat) (rest : List subsystem_data) :
    ∀ (i : Nat) (ret : Int) (w : World), AllClear w.drv.sub_sys_list →
      (subsystem_resume_loop h env state i rest ret w).world.drv = w.drv
        ∧ (subsystem_resume_loop h env state i rest ret w).world.suspend_via_firmware
            = w.suspend_via_firmware := by
  induction rest with
  | nil =>
    intro i ret w _
    simp [subsystem_resume_loop, Outcome.world]
  | cons ss rest ih =>
    intro i ret w hl
    simp only [subsystem_resume_loop]
    cases hres : env.rproc_get_by_phandle ss.rproc_handle with
    | none => simp [Outcome.world]
    | some rproc =>
      obtain ⟨hd, hf⟩ := subsys_resume_drv h env w i ss rproc state hl
      by_cases hr : (subsys_resume h env w i ss rproc state).1 ≠ 0
      · simp only [if_pos hr, Outcome.world]
        exact ⟨hd, hf⟩
      · simp only [if_neg hr]
        have hl2 : AllClear (rproc_put (subsys_resume h env w i ss rproc state).2 rproc).drv.sub_sys_list := by
          simp only [rproc_put, hd]
          exact hl
        obtain ⟨h1, h2⟩ := ih (i + 1) (subsys_resume h env w i ss rproc state).1 _ hl2
        rw [h1, h2]
        simp [rproc_put, hd, hf]

theorem resume_loop_frame (h : Header) (env : Env) (state : Nat) (rest : List subsystem_data) :
    ∀ (i : Nat) (ret : Int) (w : World),
      (subsystem_resume_loop h env state i rest ret w).world.drv.current_state
          = w.drv.current_state
        ∧ (subsystem_resume_loop h env state i rest ret w).world.drv.ps_ws_active
            = w.drv.ps_ws_active
        ∧ (subsystem_resume_loop h env state i rest ret w).world.suspend_via_firmware
            = w.suspend_via_firmware
        ∧ unflag (subsystem_resume_loop h env state i rest ret w).world.drv.sub_sys_list
            = unflag w.drv.sub_sys_list := by
  induction rest with
  | nil =>
    intro i ret w
    simp [subsystem_resume_loop, Outcome.world]
  | cons ss rest ih =>
    intro i ret w
    simp only [subsystem_resume_loop]
    cases hres : env.rproc_get_by_phandle ss.rproc_handle with
    | none => simp [Outcome.world]
    | some rproc =>
      by_cases hs : valid_class h state
      · have hstep := subsys_resume_valid h env w i ss rproc state hs
        simp only [hstep]
        by_cases hb : env.rproc_boot rproc ≠ 0
        · simp [if_pos hb, Outcome.world, unflag_set_ignore_ssr]
        · simp only [if_neg hb]
          obtain ⟨h1, h2, h3, h4⟩ := ih (i + 1) (env.rproc_boot rproc) (rproc_put _ rproc)
          rw [h1, h2, h3, h4]
          simp [rproc_put, unflag_set_ignore_ssr]
      · have hstep := subsys_resume_invalid h env w i ss rproc state hs
        simp [hstep, Outcome.world]

theorem resume_loop_bracketed (h : Header) (env : Env) (state n : Nat)
    (rest : List subsystem_data) :
    ∀ (i : Nat) (ret : Int) (w : World), AllClear w.drv.sub_sys_list →
      w.drv.sub_sys_list.length = n → i + rest.length ≤ n →
      ∃ new, (subsystem_resume_loop h env state i rest ret w).world.log = w.log ++ new
        ∧ bracketed n new = true := by
  induction rest with
  | nil =>
    intro i ret w _ _ _
    exact ⟨[], by simp [subsystem_resume_loop, Outcome.world], rfl⟩
  | cons ss rest ih =>
    intro i ret w hl hn hi
    simp only [subsystem_resume_loop]
    cases hres : env.rproc_get_by_phandle ss.rproc_handle with
    | none => exact ⟨[], by simp [Outcome.world], rfl⟩
    | some rproc =>
      by_cases hs : valid_class h state
      · have hstep := subsys_resume_valid h env w i ss rproc state hs
        have hdrv := (subsys_resume_drv h env w i ss rproc state hl).1
        have e1 : (subsys_resume h env w i ss rproc state).1 = env.rproc_boot rproc := by
          rw [hstep]
        have elog : (subsys_resume h env w i ss rproc state).2.log = w.log ++
            [Action.write_ignore_ssr i true,
             Action.rproc_boot i ss.name rproc (env.rproc_boot rproc)
               ((set_ignore_ssr w.drv.sub_sys_list i true).map (fun s => s.ignore_ssr)),
             Action.write_ignore_ssr i false] := by rw [hstep]
        simp only [List.length_cons] at hi
        have hlt : i < w.drv.sub_sys_list.length := by omega
        have hfl := flags_set_true _ i hl hlt
        rw [hn] at hfl
        have hin : i < n := by omega
        by_cases hb : (subsys_resume h env w i ss rproc state).1 ≠ 0
        · simp only [if_pos hb, Outcome.world]
          exact ⟨_, elog, by simp [bracketed, hfl, hin]⟩
        · simp only [if_neg hb]
          obtain ⟨new, h1, h2⟩ := ih (i + 1) (subsys_resume h env w i ss rproc state).1
            (rproc_put (subsys_resume h env w i ss rproc state).2 rproc)
            (by simpa [rproc_put, hdrv] using hl)
            (by simpa [rproc_put, hdrv] using hn)
            (by omega)
          refine ⟨[Action.write_ignore_ssr i true,
                 Action.rproc_boot i ss.name rproc (env.rproc_boot rproc)
                   ((set_ignore_ssr w.drv.sub_sys_list i true).map (fun s => s.ignore_ssr)),
                 Action.write_ignore_ssr i false, Action.rproc_put rproc] ++ new, ?_, ?_⟩
          · rw [h1]
            simp [rproc_put, elog]
          · simp [bracketed, h2, hfl, hin]
      · have hstep := subsys_resume_invalid h env w i ss rproc state hs
        exact ⟨[], by simp [hstep, Outcome.world], rfl⟩

/-- While every entry of `pre` resolves and boots, the resume loop walks over
`pre`: it goes on with the entries after it, having booted exactly `pre`. -/
theorem resume_loop_prefix (h : Header) (env : Env) (state : Nat) (hs : valid_class h state)
    (pre : List subsystem_data) :
    ∀ (tail : List subsystem_data) (i : Nat) (w : World),
      (∀ ss ∈ pre, boots env ss = true) →
      ∃ W : World,
        subsystem_resume_loop h env state i (pre ++ tail) 0 w
            = subsystem_resume_loop h env state (i + pre.length) tail 0 W
          ∧ boot_calls W.log = boot_calls w.log ++ indexed i pre
          ∧ shutdown_calls W.log = shutdown_calls w.log
          ∧ flag_writes W.log = flag_writes w.log ++
              (indexed i pre).flatMap (fun p => [(p.1, true), (p.1, false)])
          ∧ unflag W.drv.sub_sys_list = unflag w.drv.sub_sys_list := by
  induction pre with
  | nil =>
    intro tail i w _
    exact ⟨w, by simp, by simp [indexed], rfl, by simp [indexed], rfl⟩
  | cons ss pre ih =>
    intro tail i w hpre
    have hss : boots env ss = true := hpre ss (List.mem_cons_self _ _)
    have hpre2 : ∀ x ∈ pre, boots env x = true := fun x hx => hpre x (List.mem_cons_of_mem _ hx)
    simp only [boots] at hss
    cases hres : env.rproc_get_by_phandle ss.rproc_handle with
    | none => simp [hres] at hss
    | some rproc =>
      simp only [hres, decide_eq_true_eq] at hss
      have hstep := subsys_resume_valid h env w i ss rproc state hs
      obtain ⟨W, h1, h2, h3, h4, h5⟩ := ih tail (i + 1)
        (rproc_put (subsys_resume h env w i ss rproc state).2 rproc) hpre2
      refine ⟨W, ?_, ?_, ?_, ?_, ?_⟩
      · simp only [List.cons_append, subsystem_resume_loop, hres]
        have e1 : (subsys_resume h env w i ss rproc state).1 = 0 := by rw [hstep, hss]
        simp only [e1, ne_eq, not_true_eq_false, if_false, List.append_eq]
        rw [h1]
        simp only [List.length_cons]
        have e : i + 1 + pre.length = i + (pre.length + 1) := by omega
        rw [e]
      · rw [h2, hstep]
        simp [rproc_put, boot_calls_append, boot_calls, indexed]
      · rw [h3, hstep]
        simp [rproc_put, shutdown_calls_append, shutdown_calls]
      · rw [h4, hstep]
        simp [rproc_put, flag_writes_append, flag_writes, indexed]
      · rw [h5, hstep]
        simp [rproc_put, unflag_set_ignore_ssr]

/-! ## The control command as a whole -/

theorem entered_world (o : Outcome Int) (s : power_states) :
    (match o with
      | .bug w1 => Outcome.bug w1
      | .ret r w1 => Outcome.ret r (set_current_state w1 s)).world
      = if o.isBug = true then o.world else set_current_state o.world s := by
  cases o <;> simp [Outcome.world, Outcome.isBug]

/-- Every command leaves a registry with clear flags as it was, and adds to
the log only bracketed blocks. -/
theorem ps_ioctl_clear (h : Header) (env : Env) (w : World) (cmd : Nat)
    (hclear : AllClear w.drv.sub_sys_list) :
    (ps_ioctl h env w cmd).world.drv.sub_sys_list = w.drv.sub_sys_list
      ∧ ∃ new, (ps_ioctl h env w cmd).world.log = w.log ++ new
          ∧ bracketed w.drv.sub_sys_list.length new = true := by
  have hsd := fun st => suspend_loop_drv h env st w.drv.sub_sys_list 0 0 w hclear
  have hrd := fun st => resume_loop_drv h env st w.drv.sub_sys_list 0 0 w hclear
  have hsb := fun st => suspend_loop_bracketed h env st w.drv.sub_sys_list.length
    w.drv.sub_sys_list 0 0 w hclear rfl (by omega)
  have hrb := fun st => resume_loop_bracketed h env st w.drv.sub_sys_list.length
    w.drv.sub_sys_list 0 0 w hclear rfl (by omega)
  unfold ps_ioctl
  by_cases c1 : cmd = h.LPM_ACTIVE ∨ cmd = h.POWER_STATE_LPM_ACTIVE
  · rw [if_pos c1]
    refine ⟨?_, [], ?_, rfl⟩ <;>
      by_cases hf : w.suspend_via_firmware = true <;>
      simp [Outcome.world, set_current_state, pm_relax, pm_suspend_clear_flags, hf]
  rw [if_neg c1]
  by_cases c2 : cmd = h.ENTER_DEEPSLEEP ∨ cmd = h.POWER_STATE_ENTER_DEEPSLEEP
  · rw [if_pos c2, entered_world]
    obtain ⟨new, h1, h2⟩ := hsb h.SUBSYS_DEEPSLEEP
    have h3 := (hsd h.SUBSYS_DEEPSLEEP).1
    simp only [subsystem_suspend]
    refine ⟨?_, new, ?_, h2⟩ <;> split_ifs <;> simp [set_current_state, h1, h3]
  rw [if_neg c2]
  by_cases c3 : cmd = h.ENTER_HIBERNATE ∨ cmd = h.POWER_STATE_ENTER_HIBERNATE
  · rw [if_pos c3, entered_world]
    obtain ⟨new, h1, h2⟩ := hsb h.SUBSYS_HIBERNATE
    have h3 := (hsd h.SUBSYS_HIBERNATE).1
    simp only [subsystem_suspend]
    refine ⟨?_, new, ?_, h2⟩ <;> split_ifs <;> simp [set_current_state, h1, h3]
  rw [if_neg c3]
  by_cases c4 : cmd = h.EXIT_DEEPSLEEP_STATE ∨ cmd = h.POWER_STATE_EXIT_DEEPSLEEP_STATE
  · rw [if_pos c4]
    obtain ⟨new, h1, h2⟩ := hrb h.SUBSYS_DEEPSLEEP
    have h3 := (hrd h.SUBSYS_DEEPSLEEP).1
    simp only [subsystem_resume]
    exact ⟨by rw [h3], new, h1, h2⟩
  rw [if_neg c4]
  by_cases c5 : cmd = h.EXIT_HIBERNATE_STATE ∨ cmd = h.POWER_STATE_EXIT_HIBERNATE_STATE
  · rw [if_pos c5]
    obtain ⟨new, h1, h2⟩ := hrb h.SUBSYS_HIBERNATE
    have h3 := (hrd h.SUBSYS_HIBERNATE).1
    simp only [subsystem_resume]
    exact ⟨by rw [h3], new, h1, h2⟩
  rw [if_neg c5]
  split_ifs
  · exact ⟨rfl, [], by simp [Outcome.world], rfl⟩
  · exact ⟨rfl, [], by simp [Outcome.world], rfl⟩

theorem ps_pm_cb_registry (h : Header) (w : World) (event : Nat) :
    (ps_pm_cb h w event).2.drv.sub_sys_list = w.drv.sub_sys_list
      ∧ (ps_pm_cb h w event).2.log = w.log := by
  unfold ps_pm_cb
  split_ifs <;>
    simp [pm_set_suspend_via_firmware, send_uevent, pm_stay_awake, set_current_state]

theorem takeWhile_stop (p : subsystem_data → Bool) (pre post : List subsystem_data)
    (ss : subsystem_data) (hpre : ∀ x ∈ pre, p x = true) (hss : p ss = false) :
    (pre ++ ss :: post).takeWhile p = pre ∧ (pre ++ ss :: post).all p = false := by
  induction pre with
  | nil => simp [hss]
  | cons x pre ih =>
    have hx : p x = true := hpre x (List.mem_cons_self _ _)
    obtain ⟨h1, h2⟩ := ih (fun y hy => hpre y (List.mem_cons_of_mem _ hy))
    refine ⟨by simp [hx, h1], ?_⟩
    simp only [List.cons_append, List.all_cons, hx, Bool.true_and]
    exact h2

theorem takeWhile_all (p : subsystem_data → Bool) (l : List subsystem_data)
    (hl : ∀ x ∈ l, p x = true) : l.takeWhile p = l ∧ l.all p = true := by
  induction l with
  | nil => simp
  | cons x l ih =>
    have hx : p x = true := hl x (List.mem_cons_self _ _)
    obtain ⟨h1, h2⟩ := ih (fun y hy => hl y (List.mem_cons_of_mem _ hy))
    exact ⟨by simp [hx, h1], by simp [hx, h2]⟩

theorem flag_after_write (l : List subsystem_data) (i : Nat) (b : Bool) (hi : i < l.length) :
    ((set_ignore_ssr l i b).map (fun ss => ss.ignore_ssr))[i]? = some b := by
  induction l generalizing i with
  | nil => simp at hi
  | cons ss rest ih =>
    cases i with
    | zero => simp [set_ignore_ssr]
    | succ i =>
      have hi2 : i < rest.length := by simpa using hi
      simpa [set_ignore_ssr] using ih i hi2

theorem unflag_length (a b : List subsystem_data) (hab : unflag a = unflag b) :
    a.length = b.length := by
  have := congrArg List.length hab
  simpa [unflag] using this

/-- The resume loop at an entry whose handle does not resolve. -/
theorem resume_loop_unresolved (h : Header) (env : Env) (state i : Nat) (ret : Int)
    (ss : subsystem_data) (post : List subsystem_data) (w : World)
    (hres : resolves env ss = false) :
    subsystem_resume_loop h env state i (ss :: post) ret w = .ret (-ENODEV) w := by
  cases hr : env.rproc_get_by_phandle ss.rproc_handle with
  | none => simp only [subsystem_resume_loop, hr]
  | some rproc => simp [resolves, hr] at hres

/-- The resume loop at an entry whose boot fails. -/
theorem resume_loop_boot_fails (h : Header) (env : Env) (state i : Nat) (ret : Int)
    (ss : subsystem_data) (post : List subsystem_data) (w : World) (rproc : Nat)
    (hs : valid_class h state)
    (hres : env.rproc_get_by_phandle ss.rproc_handle = some rproc)
    (hfail : env.rproc_boot rproc ≠ 0) :
    subsystem_resume_loop h env state i (ss :: post) ret w
      = .bug (subsys_resume h env w i ss rproc state).2 := by
  have hstep := subsys_resume_valid h env w i ss rproc state hs
  have e1 : (subsys_resume h env w i ss rproc state).1 = env.rproc_boot rproc := by rw [hstep]
  simp only [subsystem_resume_loop, hres, e1, ne_eq, hfail, not_false_eq_true, if_true]

/-! ## Notifications in flight -/

theorem names_set_ignore_ssr (l : List subsystem_data) (i : Nat) (b : Bool) :
    (set_ignore_ssr l i b).map (fun ss => ss.name) = l.map (fun ss => ss.name) := by
  induction l generalizing i with
  | nil => rfl
  | cons ss rest ih =>
    cases i with
    | zero => simp [set_ignore_ssr]
    | succ i => simp [set_ignore_ssr, ih]

theorem drop_eq_cons {α : Type} (l : List α) (i : Nat) (a : α) (t : List α)
    (hd : l.drop i = a :: t) : l[i]? = some a ∧ l.drop (i + 1) = t := by
  induction l generalizing i with
  | nil => simp at hd
  | cons x l ih =>
    cases i with
    | zero =>
      simp only [List.drop_zero, List.cons.injEq] at hd
      simp [hd.1, hd.2]
    | succ i =>
      simp only [List.drop_succ_cons] at hd
      simpa using ih i hd

/-- With pairwise distinct names, the lookup of the name at position `i` finds
the entry at `i`: while its flag is set, the lookup sees the flag. -/
theorem find_in_flight (l : List subsystem_data) (i : Nat) (nm : String)
    (hnd : (l.map (fun ss => ss.name)).Nodup)
    (hi : (l.map (fun ss => ss.name))[i]? = some nm) :
    ∃ s, (set_ignore_ssr l i true).find? (fun x => x.name == nm) = some s
      ∧ s.ignore_ssr = true := by
  induction l generalizing i with
  | nil => simp at hi
  | cons x rest ih =>
    simp only [List.map_cons, List.nodup_cons] at hnd
    cases i with
    | zero =>
      simp only [List.map_cons, List.getElem?_cons_zero, Option.some.injEq] at hi
      exact ⟨{ x with ignore_ssr := true }, by simp [set_ignore_ssr, hi], rfl⟩
    | succ i =>
      simp only [List.map_cons, List.getElem?_cons_succ] at hi
      have hmem : nm ∈ rest.map (fun ss => ss.name) := List.getElem?_mem hi
      have hne : x.name ≠ nm := fun e => hnd.1 (e ▸ hmem)
      obtain ⟨s, h1, h2⟩ := ih i hnd.2 hi
      exact ⟨s, by simp [set_ignore_ssr, List.find?_cons, hne, h1], h2⟩

theorem in_flight_quiet (l : List subsystem_data) (i : Nat) (nm : String)
    (ns : List (String × Nat))
    (hnd : (l.map (fun ss => ss.name)).Nodup)
    (hi : (l.map (fun ss => ss.name))[i]? = some nm)
    (hns : ∀ n ∈ ns, n.1 = nm) :
    ssr_events (set_ignore_ssr l i true) ns = [] := by
  obtain ⟨s, h1, h2⟩ := find_in_flight l i nm hnd hi
  simp only [ssr_events, List.flatMap_eq_nil_iff]
  intro n hn
  simp only [ssr_event, hns n hn, h1, h2, if_true]

theorem suspend_loop_quiet (h : Header) (env : Env) (state : Nat) (hs : valid_class h state)
    (rest : List subsystem_data) :
    ∀ (i : Nat) (ret : Int) (w : World),
      (w.drv.sub_sys_list.map (fun ss => ss.name)).Nodup →
      (w.drv.sub_sys_list.map (fun ss => ss.name)).drop i = rest.map (fun ss => ss.name) →
      names_in_flight env rest →
      (subsystem_suspend_loop h env state i rest ret w).world.uevents = w.uevents := by
  induction rest with
  | nil =>
    intro i ret w _ _ _
    simp [subsystem_suspend_loop, Outcome.world]
  | cons ss rest ih =>
    intro i ret w hnd hdrop hnm
    simp only [subsystem_suspend_loop]
    cases hres : env.rproc_get_by_phandle ss.rproc_handle with
    | none => simp [Outcome.world]
    | some rproc =>
      have hstep := subsys_suspend_valid h env w i ss rproc state hs
      obtain ⟨hi, hdrop2⟩ := drop_eq_cons _ i ss.name _ hdrop
      have hq := in_flight_quiet w.drv.sub_sys_list i ss.name (env.ssr_in_shutdown rproc)
        hnd hi (hnm ss (List.mem_cons_self _ _) rproc hres).1
      have hnm2 : names_in_flight env rest :=
        fun x hx => hnm x (List.mem_cons_of_mem _ hx)
      simp only [hstep, ne_eq, not_true_eq_false, if_false]
      rw [ih (i + 1) 0 (rproc_put _ rproc)
        (by simpa [rproc_put, names_set_ignore_ssr] using hnd)
        (by simpa [rproc_put, names_set_ignore_ssr] using hdrop2) hnm2]
      simp [rproc_put, hq]

theorem resume_loop_quiet (h : Header) (env : Env) (state : Nat) (hs : valid_class h state)
    (rest : List subsystem_data) :
    ∀ (i : Nat) (ret : Int) (w : World),
      (w.drv.sub_sys_list.map (fun ss => ss.name)).Nodup →
      (w.drv.sub_sys_list.map (fun ss => ss.name)).drop i = rest.map (fun ss => ss.name) →
      names_in_flight env rest →
      (subsystem_resume_loop h env state i rest ret w).world.uevents = w.uevents := by
  induction rest with
  | nil =>
    intro i ret w _ _ _
    simp [subsystem_resume_loop, Outcome.world]
  | cons ss rest ih =>
    intro i ret w hnd hdrop hnm
    simp only [subsystem_resume_loop]
    cases hres : env.rproc_get_by_phandle ss.rproc_handle with
    | none => simp [Outcome.world]
    | some rproc =>
      have hstep := subsys_resume_valid h env w i ss rproc state hs
      obtain ⟨hi, hdrop2⟩ := drop_eq_cons _ i ss.name _ hdrop
      have hq := in_flight_quiet w.drv.sub_sys_list i ss.name (env.ssr_in_boot rproc)
        hnd hi (hnm ss (List.mem_cons_self _ _) rproc hres).2
      have hnm2 : names_in_flight env rest :=
        fun x hx => hnm x (List.mem_cons_of_mem _ hx)
      simp only [hstep]
      by_cases hb : env.rproc_boot rproc ≠ 0
      · simp [if_pos hb, Outcome.world, hq]
      · simp only [if_neg hb]
        rw [ih (i + 1) (env.rproc_boot rproc) (rproc_put _ rproc)
          (by simpa [rproc_put, names_set_ignore_ssr] using hnd)
          (by simpa [rproc_put, names_set_ignore_ssr] using hdrop2) hnm2]
        simp [rproc_put, hq]

/-! ## What flag writes leave alone -/

theorem names_of_unflag (a b : List subsystem_data) (hab : unflag a = unflag b) :
    a.map (fun ss => ss.name) = b.map (fun ss => ss.name) := by
  have := congrArg (List.map (fun ss : subsystem_data => ss.name)) hab
  simpa [unflag] using this

theorem indexed_unflag (i : Nat) (l : List subsystem_data) :
    indexed i (unflag l) = indexed i l := by
  induction l generalizing i with
  | nil => rfl
  | cons x l ih =>
    have := ih (i + 1)
    simp only [unflag] at this
    simp [unflag, indexed, this]

theorem indexed_of_unflag (i : Nat) (a b : List subsystem_data) (hab : unflag a = unflag b) :
    indexed i a = indexed i b := by
  rw [← indexed_unflag i a, ← indexed_unflag i b, hab]

theorem mem_of_unflag (a b : List subsystem_data) (hab : unflag a = unflag b)
    (ss : subsystem_data) (hss : ss ∈ b) :
    ∃ x ∈ a, x.name = ss.name ∧ x.rproc_handle = ss.rproc_handle := by
  have hmem : ({ ss with ignore_ssr := false } : subsystem_data) ∈ unflag b :=
    List.mem_map.mpr ⟨ss, hss, rfl⟩
  rw [← hab] at hmem
  obtain ⟨x, hx, hxe⟩ := List.mem_map.mp hmem
  simp only [subsystem_data.mk.injEq] at hxe
  exact ⟨x, hx, hxe.1, hxe.2.2.2.2.1⟩

theorem boots_of_unflag (env : Env) (a b : List subsystem_data) (hab : unflag a = unflag b)
    (ha : ∀ ss ∈ a, boots env ss = true) : ∀ ss ∈ b, boots env ss = true := by
  intro ss hss
  obtain ⟨x, hx, _, hh⟩ := mem_of_unflag a b hab ss hss
  have := ha x hx
  simpa [boots, hh] using this

theorem names_in_flight_of_unflag (env : Env) (a b : List subsystem_data)
    (hab : unflag a = unflag b) (ha : names_in_flight env a) : names_in_flight env b := by
  intro ss hss rproc hr
  obtain ⟨x, hx, hn, hh⟩ := mem_of_unflag a b hab ss hss
  have := ha x hx rproc (by rw [hh]; exact hr)
  rw [hn] at this
  exact this

theorem resolves_of_boots (env : Env) (ss : subsystem_data) (hb : boots env ss = true) :
    resolves env ss = true := by
  unfold boots at hb
  unfold resolves
  cases hr : env.rproc_get_by_phandle ss.rproc_handle with
  | none => simp [hr] at hb
  | some rproc => rfl

/-! ## The arms of `ps_ioctl` -/

theorem labels_distinct (h : Header) (hwf : h.WellFormed) :
    h.caseLabels.Pairwise (fun a b => a ≠ b) := hwf

theorem labels_facts (h : Header) (hwf : h.WellFormed) :
    h.caseLabels.Pairwise (fun a b => a ≠ b ∧ b ≠ a) :=
  (labels_distinct h hwf).imp (fun hab => ⟨hab, Ne.symm hab⟩)

theorem ps_ioctl_active (h : Header) (env : Env) (w : World) (cmd : Nat)
    (hc : cmd = h.LPM_ACTIVE ∨ cmd = h.POWER_STATE_LPM_ACTIVE) :
    ps_ioctl h env w cmd
      = .ret 0 (set_current_state
          (if w.suspend_via_firmware = true then pm_relax (pm_suspend_clear_flags w) else w)
          .ACTIVE) := by
  unfold ps_ioctl
  rw [if_pos hc]

theorem ps_ioctl_enter_deepsleep (h : Header) (hwf : h.WellFormed) (env : Env) (w : World)
    (cmd : Nat) (hc : cmd = h.ENTER_DEEPSLEEP ∨ cmd = h.POWER_STATE_ENTER_DEEPSLEEP) :
    ps_ioctl h env w cmd
      = match subsystem_suspend h env w h.SUBSYS_DEEPSLEEP with
        | .bug w1 => .bug w1
        | .ret r w1 => .ret r (set_current_state w1 .DEEPSLEEP) := by
  have hd := labels_facts h hwf
  simp only [Header.caseLabels, List.pairwise_cons, List.mem_cons, List.mem_singleton,
    forall_eq_or_imp, forall_eq, List.not_mem_nil, false_implies, implies_true, and_true,
    List.Pairwise.nil, ne_eq] at hd
  have n1 : ¬ (cmd = h.LPM_ACTIVE ∨ cmd = h.POWER_STATE_LPM_ACTIVE) := by
    rcases hc with rfl | rfl <;>
      simp only [hd, or_self, not_false_eq_true]
  unfold ps_ioctl
  rw [if_neg n1, if_pos hc]

theorem ps_ioctl_enter_hibernate (h : Header) (hwf : h.WellFormed) (env : Env) (w : World)
    (cmd : Nat) (hc : cmd = h.ENTER_HIBERNATE ∨ cmd = h.POWER_STATE_ENTER_HIBERNATE) :
    ps_ioctl h env w cmd
      = match subsystem_suspend h env w h.SUBSYS_HIBERNATE with
        | .bug w1 => .bug w1
        | .ret r w1 => .ret r (set_current_state w1 .HIBERNATE) := by
  have hd := labels_facts h hwf
  simp only [Header.caseLabels, List.pairwise_cons, List.mem_cons, List.mem_singleton,
    forall_eq_or_imp, forall_eq, List.not_mem_nil, false_implies, implies_true, and_true,
    List.Pairwise.nil, ne_eq] at hd
  have n1 : ¬ (cmd = h.LPM_ACTIVE ∨ cmd = h.POWER_STATE_LPM_ACTIVE) := by
    rcases hc with rfl | rfl <;>
      simp only [hd, or_self, not_false_eq_true]
  have n2 : ¬ (cmd = h.ENTER_DEEPSLEEP ∨ cmd = h.POWER_STATE_ENTER_DEEPSLEEP) := by
    rcases hc with rfl | rfl <;>
      simp only [hd, or_self, not_false_eq_true]
  unfold ps_ioctl
  rw [if_neg n1, if_neg n2, if_pos hc]

theorem ps_ioctl_exit_deepsleep (h : Header) (hwf : h.WellFormed) (env : Env) (w : World)
    (cmd : Nat)
    (hc : cmd = h.EXIT_DEEPSLEEP_STATE ∨ cmd = h.POWER_STATE_EXIT_DEEPSLEEP_STATE) :
    ps_ioctl h env w cmd = subsystem_resume h env w h.SUBSYS_DEEPSLEEP := by
  have hd := labels_facts h hwf
  simp only [Header.caseLabels, List.pairwise_cons, List.mem_cons, List.mem_singleton,
    forall_eq_or_imp, forall_eq, List.not_mem_nil, false_implies, implies_true, and_true,
    List.Pairwise.nil, ne_eq] at hd
  have n1 : ¬ (cmd = h.LPM_ACTIVE ∨ cmd = h.POWER_STATE_LPM_ACTIVE) := by
    rcases hc with rfl | rfl <;>
      simp only [hd, or_self, not_false_eq_true]
  have n2 : ¬ (cmd = h.ENTER_DEEPSLEEP ∨ cmd = h.POWER_STATE_ENTER_DEEPSLEEP) := by
    rcases hc with rfl | rfl <;>
      simp only [hd, or_self, not_false_eq_true]
  have n3 : ¬ (cmd = h.ENTER_HIBERNATE ∨ cmd = h.POWER_STATE_ENTER_HIBERNATE) := by
    rcases hc with rfl | rfl <;>
      simp only [hd, or_self, not_false_eq_true]
  unfold ps_ioctl
  rw [if_neg n1, if_neg n2, if_neg n3, if_pos hc]

theorem ps_ioctl_exit_hibernate (h : Header) (hwf : h.WellFormed) (env : Env) (w : World)
    (cmd : Nat)
    (hc : cmd = h.EXIT_HIBERNATE_STATE ∨ cmd = h.POWER_STATE_EXIT_HIBERNATE_STATE) :
    ps_ioctl h env w cmd = subsystem_resume h env w h.SUBSYS_HIBERNATE := by
  have hd := labels_facts h hwf
  simp only [Header.caseLabels, List.pairwise_cons, List.mem_cons, List.mem_singleton,
    forall_eq_or_imp, forall_eq, List.not_mem_nil, false_implies, implies_true, and_true,
    List.Pairwise.nil, ne_eq] at hd
  have n1 : ¬ (cmd = h.LPM_ACTIVE ∨ cmd = h.POWER_STATE_LPM_ACTIVE) := by
    rcases hc with rfl | rfl <;>
      simp only [hd, or_self, not_false_eq_true]
  have n2 : ¬ (cmd = h.ENTER_DEEPSLEEP ∨ cmd = h.POWER_STATE_ENTER_DEEPSLEEP) := by
    rcases hc with rfl | rfl <;>
      simp only [hd, or_self, not_false_eq_true]
  have n3 : ¬ (cmd = h.ENTER_HIBERNATE ∨ cmd = h.POWER_STATE_ENTER_HIBERNATE) := by
    rcases hc with rfl | rfl <;>
      simp only [hd, or_self, not_false_eq_true]
  have n4 : ¬ (cmd = h.EXIT_DEEPSLEEP_STATE ∨ cmd = h.POWER_STATE_EXIT_DEEPSLEEP_STATE) := by
    rcases hc with rfl | rfl <;>
      simp only [hd, or_self, not_false_eq_true]
  unfold ps_ioctl
  rw [if_neg n1, if_neg n2, if_neg n3, if_neg n4, if_pos hc]

theorem ps_ioctl_deprecated (h : Header) (hwf : h.WellFormed) (env : Env) (w : World)
    (cmd : Nat) (hc : cmd ∈ h.deprecatedLabels) :
    ps_ioctl h env w cmd = .ret 0 w := by
  have hd := labels_facts h hwf
  simp only [Header.caseLabels, List.pairwise_cons, List.mem_cons, List.mem_singleton,
    forall_eq_or_imp, forall_eq, List.not_mem_nil, false_implies, implies_true, and_true,
    List.Pairwise.nil, ne_eq] at hd
  simp only [Header.deprecatedLabels, List.mem_cons, List.mem_singleton, List.not_mem_nil,
    or_false] at hc
  have n1 : ¬ (cmd = h.LPM_ACTIVE ∨ cmd = h.POWER_STATE_LPM_ACTIVE) := by
    rcases hc with rfl | rfl | rfl | rfl | rfl | rfl | rfl | rfl <;>
      simp only [hd, or_self, not_false_eq_true]
  have n2 : ¬ (cmd = h.ENTER_DEEPSLEEP ∨ cmd = h.POWER_STATE_ENTER_DEEPSLEEP) := by
    rcases hc with rfl | rfl | rfl | rfl | rfl | rfl | rfl | rfl <;>
      simp only [hd, or_self, not_false_eq_true]
  have n3 : ¬ (cmd = h.ENTER_HIBERNATE ∨ cmd = h.POWER_STATE_ENTER_HIBERNATE) := by
    rcases hc with rfl | rfl | rfl | rfl | rfl | rfl | rfl | rfl <;>
      simp only [hd, or_self, not_false_eq_true]
  have n4 : ¬ (cmd = h.EXIT_DEEPSLEEP_STATE ∨ cmd = h.POWER_STATE_EXIT_DEEPSLEEP_STATE) := by
    rcases hc with rfl | rfl | rfl | rfl | rfl | rfl | rfl | rfl <;>
      simp only [hd, or_self, not_false_eq_true]
  have n5 : ¬ (cmd = h.EXIT_HIBERNATE_STATE ∨ cmd = h.POWER_STATE_EXIT_HIBERNATE_STATE) := by
    rcases hc with rfl | rfl | rfl | rfl | rfl | rfl | rfl | rfl <;>
      simp only [hd, or_self, not_false_eq_true]
  unfold ps_ioctl
  rw [if_neg n1, if_neg n2, if_neg n3, if_neg n4, if_neg n5, if_pos hc]

theorem ps_ioctl_unknown (h : Header) (env : Env) (w : World)
    (cmd : Nat) (hc : cmd ∉ h.caseLabels) :
    ps_ioctl h env w cmd = .ret (-ENOIOCTLCMD) w := by
  simp only [Header.caseLabels, List.mem_cons, List.mem_singleton, List.not_mem_nil,
    or_false, not_or] at hc
  unfold ps_ioctl
  simp only [hc, or_self, if_false]

theorem sample_names_in_flight (unresolved failing : List Nat) :
    names_in_flight (sampleEnv unresolved failing) registry3 := by
  intro ss hss rproc hr
  simp only [registry3, List.mem_cons, List.mem_singleton, List.not_mem_nil, or_false] at hss
  rcases hss with rfl | rfl | rfl <;>
    · simp only [sampleEnv, mkSub] at hr
      split_ifs at hr
      simp only [Option.some.injEq] at hr
      subst hr
      simp [sampleEnv, sampleName, mkSub]

/-- The lookup of `ps_ssr_cb` finds nothing when no entry has the name. -/
theorem find_name_none (l : List subsystem_data) (name : String)
    (hl : ∀ ss ∈ l, ss.name ≠ name) :
    l.find? (fun ss => ss.name == name) = none := by
  simp only [List.find?_eq_none, beq_iff_eq]
  exact hl

/-- The lookup of `ps_ssr_cb` finds the first entry that has the name. -/
theorem find_name_first (pre post : List subsystem_data) (ss : subsystem_data) (name : String)
    (hpre : ∀ x ∈ pre, x.name ≠ name) (hss : ss.name = name) :
    (pre ++ ss :: post).find? (fun x => x.name == name) = some ss := by
  rw [List.find?_append, find_name_none pre name hpre]
  simp [List.find?_cons, hss]

/-- An Enter command that returns leaves the state it names. -/
theorem entered_state (o : Outcome Int) (s : power_states) (r1 : Int) (w1 : World)
    (hret : (match o with
      | .bug w => Outcome.bug w
      | .ret r w => Outcome.ret r (set_current_state w s)) = .ret r1 w1) :
    w1.drv.current_state = s := by
  cases o with
  | bug w => simp at hret
  | ret r w =>
    simp only [Outcome.ret.injEq] at hret
    rw [← hret.2]
    rfl

/-! ## The suspend flag and the wake lock along a sequence of entries -/

/-- A control command either keeps the suspend flag and the wake lock, or (the
Active arm) leaves both clear. -/
theorem ps_ioctl_flags (h : Header) (env : Env) (w : World) (cmd : Nat) :
    ((ps_ioctl h env w cmd).world.suspend_via_firmware = w.suspend_via_firmware
        ∧ (ps_ioctl h env w cmd).world.drv.ps_ws_active = w.drv.ps_ws_active)
      ∨ ((ps_ioctl h env w cmd).world.suspend_via_firmware = false
        ∧ (ps_ioctl h env w cmd).world.drv.ps_ws_active = false
        ∧ w.suspend_via_firmware = true) := by
  have hs := fun st => suspend_loop_frame h env st w.drv.sub_sys_list 0 0 w
  have hr := fun st => resume_loop_frame h env st w.drv.sub_sys_list 0 0 w
  unfold ps_ioctl
  by_cases c1 : cmd = h.LPM_ACTIVE ∨ cmd = h.POWER_STATE_LPM_ACTIVE
  · rw [if_pos c1]
    by_cases hf : w.suspend_via_firmware = true
    · right
      simp [Outcome.world, set_current_state, pm_relax, pm_suspend_clear_flags, hf]
    · left
      simp [Outcome.world, set_current_state, hf]
  rw [if_neg c1]
  by_cases c2 : cmd = h.ENTER_DEEPSLEEP ∨ cmd = h.POWER_STATE_ENTER_DEEPSLEEP
  · rw [if_pos c2, entered_world]
    obtain ⟨_, f2, f3, _⟩ := hs h.SUBSYS_DEEPSLEEP
    left
    simp only [subsystem_suspend]
    constructor <;> split_ifs <;> simp [set_current_state, f2, f3]
  rw [if_neg c2]
  by_cases c3 : cmd = h.ENTER_HIBERNATE ∨ cmd = h.POWER_STATE_ENTER_HIBERNATE
  · rw [if_pos c3, entered_world]
    obtain ⟨_, f2, f3, _⟩ := hs h.SUBSYS_HIBERNATE
    left
    simp only [subsystem_suspend]
    constructor <;> split_ifs <;> simp [set_current_state, f2, f3]
  rw [if_neg c3]
  by_cases c4 : cmd = h.EXIT_DEEPSLEEP_STATE ∨ cmd = h.POWER_STATE_EXIT_DEEPSLEEP_STATE
  · rw [if_pos c4]
    obtain ⟨_, f2, f3, _⟩ := hr h.SUBSYS_DEEPSLEEP
    exact Or.inl ⟨f3, f2⟩
  rw [if_neg c4]
  by_cases c5 : cmd = h.EXIT_HIBERNATE_STATE ∨ cmd = h.POWER_STATE_EXIT_HIBERNATE_STATE
  · rw [if_pos c5]
    obtain ⟨_, f2, f3, _⟩ := hr h.SUBSYS_HIBERNATE
    exact Or.inl ⟨f3, f2⟩
  rw [if_neg c5]
  split_ifs <;> exact Or.inl ⟨rfl, rfl⟩

/-- What a power-management notification does to the suspend flag and the
wake lock. -/
theorem ps_pm_cb_flags (h : Header) (w : World) (event : Nat) :
    ((ps_pm_cb h w event).2.suspend_via_firmware = w.suspend_via_firmware
        ∨ ((ps_pm_cb h w event).2.suspend_via_firmware = true
            ∧ event = PM_SUSPEND_PREPARE ∧ w.drv.current_state = .DEEPSLEEP))
      ∧ ((ps_pm_cb h w event).2.drv.ps_ws_active = w.drv.ps_ws_active
        ∨ ((ps_pm_cb h w event).2.drv.ps_ws_active = true
            ∧ (ps_pm_cb h w event).2.suspend_via_firmware = true)) := by
  unfold ps_pm_cb
  by_cases e1 : event = PM_SUSPEND_PREPARE
  · rw [if_pos e1]
    by_cases hd : w.drv.current_state = .DEEPSLEEP
    · rw [if_pos hd]
      exact ⟨Or.inr ⟨rfl, e1, hd⟩, Or.inl rfl⟩
    · rw [if_neg hd]
      exact ⟨Or.inl rfl, Or.inl rfl⟩
  rw [if_neg e1]
  by_cases e2 : event = PM_POST_SUSPEND
  · rw [if_pos e2]
    by_cases hf : w.suspend_via_firmware = true
    · rw [if_pos hf]
      exact ⟨Or.inl rfl, Or.inr ⟨rfl, hf⟩⟩
    · rw [if_neg hf]
      exact ⟨Or.inl rfl, Or.inl rfl⟩
  rw [if_neg e2]
  split_ifs <;> exact ⟨Or.inl rfl, Or.inl rfl⟩

/-- Only a `PM_SUSPEND_PREPARE` handled in DEEPSLEEP sets the suspend flag. -/
theorem step_sets_flag (h : Header) (w : World) (i : Input)
    (hw : w.suspend_via_firmware = false)
    (hs : (step h w i).world.suspend_via_firmware = true) :
    i = Input.pm PM_SUSPEND_PREPARE ∧ w.drv.current_state = .DEEPSLEEP := by
  cases i with
  | ioctl env cmd =>
    rcases ps_ioctl_flags h env w cmd with ⟨f1, _⟩ | ⟨f1, _, _⟩
    · simp only [step] at hs
      rw [f1, hw] at hs
      exact absurd hs (by decide)
    · simp only [step] at hs
      rw [f1] at hs
      exact absurd hs (by decide)
  | ssr opcode name =>
    simp only [step, Outcome.world, ps_ssr_cb_eq] at hs
    rw [hw] at hs
    exact absurd hs (by decide)
  | pm event =>
    simp only [step, Outcome.world] at hs
    rcases (ps_pm_cb_flags h w event).1 with f | ⟨_, f2, f3⟩
    · rw [f, hw] at hs
      exact absurd hs (by decide)
    · exact ⟨by rw [f2], f3⟩

/-- The wake lock is held only while the suspend flag is set: one entry keeps
this. -/
theorem step_keeps_lock_invariant (h : Header) (w : World) (i : Input)
    (hinv : w.drv.ps_ws_active = true → w.suspend_via_firmware = true) :
    (step h w i).world.drv.ps_ws_active = true →
      (step h w i).world.suspend_via_firmware = true := by
  cases i with
  | ioctl env cmd =>
    simp only [step]
    rcases ps_ioctl_flags h env w cmd with ⟨f1, f2⟩ | ⟨_, f2, _⟩
    · rw [f1, f2]
      exact hinv
    · rw [f2]
      intro hc
      exact absurd hc (by decide)
  | ssr opcode name =>
    simp only [step, Outcome.world, ps_ssr_cb_eq]
    exact hinv
  | pm event =>
    simp only [step, Outcome.world]
    obtain ⟨f1, f2⟩ := ps_pm_cb_flags h w event
    rcases f2 with f2 | ⟨_, f2⟩
    · rw [f2]
      intro hws
      rcases f1 with f1 | ⟨f1, _⟩
      · rw [f1]
        exact hinv hws
      · exact f1
    · intro _
      exact f2

theorem run_cons (h : Header) (w w1 : World) (i : Input) (rest : List Input) (r : Int)
    (hstep : step h w i = .ret r w1) : run h w (i :: rest) = run h w1 rest := by
  simp only [run, hstep]

/-- A set suspend flag traces back to the start of the sequence or to a
`PM_SUSPEND_PREPARE` handled in DEEPSLEEP. -/
theorem run_flag_origin (h : Header) (inputs : List Input) :
    ∀ (w0 w : World), run h w0 inputs = some w → w.suspend_via_firmware = true →
      w0.suspend_via_firmware = true ∨ prepared_in_deepsleep h w0 inputs := by
  induction inputs with
  | nil =>
    intro w0 w hrun hw
    simp only [run, Option.some.injEq] at hrun
    rw [hrun]
    exact Or.inl hw
  | cons i rest ih =>
    intro w0 w hrun hw
    cases hstep : step h w0 i with
    | bug w1 => simp [run, hstep] at hrun
    | ret r w1 =>
      rw [run_cons h w0 w1 i rest r hstep] at hrun
      by_cases h0 : w0.suspend_via_firmware = true
      · exact Or.inl h0
      right
      rcases ih w1 w hrun hw with h1 | ⟨pre, post, w2, e1, e2, e3⟩
      · have hs : (step h w0 i).world.suspend_via_firmware = true := by
          rw [hstep]
          exact h1
        obtain ⟨hi, hd⟩ := step_sets_flag h w0 i (by simpa using h0) hs
        exact ⟨[], rest, w0, by simp [hi], rfl, hd⟩
      · refine ⟨i :: pre, post, w2, by simp [e1], ?_, e3⟩
        rw [run_cons h w0 w1 i pre r hstep]
        exact e2

/-- The wake lock is held only while the suspend flag is set, after every
sequence of entries that starts so. -/
theorem run_lock_invariant (h : Header) (inputs : List Input) :
    ∀ (w0 w : World), run h w0 inputs = some w →
      (w0.drv.ps_ws_active = true → w0.suspend_via_firmware = true) →
      (w.drv.ps_ws_active = true → w.suspend_via_firmware = true) := by
  induction inputs with
  | nil =>
    intro w0 w hrun hinv
    simp only [run, Option.some.injEq] at hrun
    rw [← hrun]
    exact hinv
  | cons i rest ih =>
    intro w0 w hrun hinv
    cases hstep : step h w0 i with
    | bug w1 => simp [run, hstep] at hrun
    | ret r w1 =>
      rw [run_cons h w0 w1 i rest r hstep] at hrun
      have h1 := step_keeps_lock_invariant h w0 i hinv
      rw [hstep] at h1
      exact ih w1 w hrun h1

/-! ## The uevent string -/

/-- Taking at least as many characters as a string has gives the string. -/
theorem take_all (s : String) (n : Nat) (hn : s.length ≤ n) : s.take n = s := by
  rw [String.take_eq]
  have : s.1.take n = s.1 := List.take_of_length_le hn
  rw [this]

/-- The decimal text of a 32-bit signed integer has at most 11 characters. -/
theorem decimal_length (e : Int) (hlo : -2 ^ 31 ≤ e) (hhi : e < 2 ^ 31) :
    (toString e).length ≤ 11 := by
  cases e with
  | ofNat m =>
    have hm : m < 10 ^ 10 := by
      have : (m : Int) < 2 ^ 31 := hhi
      omega
    have := Nat.repr_length m 10 (by decide) hm
    show (Nat.repr m).length ≤ 11
    omega
  | negSucc m =>
    have hm : m + 1 < 10 ^ 10 := by
      have : -2 ^ 31 ≤ Int.negSucc m := hlo
      rw [Int.negSucc_eq] at this
      omega
    have := Nat.repr_length (m + 1) 10 (by decide) hm
    show ("-" ++ Nat.repr (m + 1)).length ≤ 11
    rw [String.length_append]
    have h1 : "-".length = 1 := by decide
    omega

/-! ## The unwinding loop -/

theorem unregistered_append (a b : List SsrCall) :
    unregistered (a ++ b) = unregistered a ++ unregistered b := by
  induction a with
  | nil => rfl
  | cons x a ih => cases x <;> simp [unregistered, ih]

/-- On an empty registry the unwinding loop does nothing. -/
theorem unregister_loop_nil (p : Platform) (hl : p.sub_sys_list = []) :
    unregister_loop (p.sub_sys_list.length + 1) (list_first p.sub_sys_list) p = .done p := by
  rw [hl]
  rfl

/-- On a registry with a first entry the unwinding loop unregisters that entry
and unlinks it; the step to the next entry then lands on `LIST_POISON1`. -/
theorem unregister_loop_cons (p : Platform) (ss : subsystem_data) (rest : List subsystem_data)
    (hl : p.sub_sys_list = ss :: rest) :
    unregister_loop (p.sub_sys_list.length + 1) (list_first p.sub_sys_list) p
      = .oops { p with
          ssr_calls := p.ssr_calls ++ [SsrCall.unregister ss.ssr_handle]
          sub_sys_list := rest } := by
  rw [hl]
  simp [list_first, unregister_loop, hl, unregister_entry]

/-! ## Claims -/

/-- C1: starting from a registry whose `ignore_ssr` flags are all clear, after
any control command (`ps_ioctl`, whether it returns or stops at `BUG()`),
crash-restart notification (`ps_ssr_cb`) or power-management notification
(`ps_pm_cb`) every flag is clear again.  The command adds to the log only
bracketed blocks: a flag is set only right before the shutdown / boot call on
that same subsystem and cleared right after it, and while the call runs no
other flag is set.  The two notification handlers write no flag and make no
call at all. -/
theorem ignore_ssr_only_in_flight (h : Header) (env : Env) (w : World)
    (hclear : AllClear w.drv.sub_sys_list) :
    (∀ cmd : Nat,
        AllClear (ps_ioctl h env w cmd).world.drv.sub_sys_list
          ∧ ∃ new, (ps_ioctl h env w cmd).world.log = w.log ++ new
              ∧ bracketed w.drv.sub_sys_list.length new = true)
      ∧ (∀ (opcode : Nat) (name : String),
          AllClear (ps_ssr_cb w opcode name).2.drv.sub_sys_list
            ∧ (ps_ssr_cb w opcode name).2.log = w.log)
      ∧ (∀ event : Nat,
          AllClear (ps_pm_cb h w event).2.drv.sub_sys_list
            ∧ (ps_pm_cb h w event).2.log = w.log) := by
  refine ⟨?_, ?_, ?_⟩
  · intro cmd
    obtain ⟨h1, h2⟩ := ps_ioctl_clear h env w cmd hclear
    exact ⟨by rw [h1]; exact hclear, h2⟩
  · intro opcode name
    rw [ps_ssr_cb_eq]
    exact ⟨hclear, rfl⟩
  · intro event
    obtain ⟨h1, h2⟩ := ps_pm_cb_registry h w event
    exact ⟨by rw [h1]; exact hclear, h2⟩

/-- C1 at the registry `[mpss, lpass, cdsp]`, for the EnterDeepSleep command. -/
theorem ignore_ssr_only_in_flight_witness :
    AllClear (initWorld registry3).drv.sub_sys_list
      ∧ AllClear
          (ps_ioctl hdr (sampleEnv [] []) (initWorld registry3) hdr.ENTER_DEEPSLEEP).world.drv.sub_sys_list
      ∧ ∃ new,
          (ps_ioctl hdr (sampleEnv [] []) (initWorld registry3) hdr.ENTER_DEEPSLEEP).world.log
              = (initWorld registry3).log ++ new
            ∧ bracketed (initWorld registry3).drv.sub_sys_list.length new = true :=
  ⟨by decide,
   (ignore_ssr_only_in_flight hdr (sampleEnv [] []) (initWorld registry3) (by decide)).1
     hdr.ENTER_DEEPSLEEP⟩

/-- C2, evaluated on the code: on the registry `[mpss, lpass, cdsp]` with every
handle resolving, the shutdown of mpss reports failure (`-1`), and yet
`subsystem_suspend` does not reach `BUG()`: it goes on to shut down lpass and
cdsp and returns 0, and the EnterDeepSleep command returns 0 as well.
`subsys_suspend` does not read what `rproc_shutdown` reports. -/
theorem shutdown_failure_is_not_fatal :
    (sampleEnv [] [110]).rproc_get_by_phandle 10 = some 110
      ∧ (sampleEnv [] [110]).rproc_shutdown 110 = -1
      ∧ (subsystem_suspend hdr (sampleEnv [] [110]) (initWorld registry3)
            hdr.SUBSYS_DEEPSLEEP).isBug = false
      ∧ (subsystem_suspend hdr (sampleEnv [] [110]) (initWorld registry3)
            hdr.SUBSYS_DEEPSLEEP).returned = some 0
      ∧ shutdown_calls (subsystem_suspend hdr (sampleEnv [] [110]) (initWorld registry3)
            hdr.SUBSYS_DEEPSLEEP).world.log = [(0, "mpss"), (1, "lpass"), (2, "cdsp")]
      ∧ (ps_ioctl hdr (sampleEnv [] [110]) (initWorld registry3)
            hdr.ENTER_DEEPSLEEP).returned = some 0 := by
  decide

/-- C3: `subsystem_resume` takes a failed boot as fatal.  For class DeepSleep
or Hibernate, when the entries before subsystem `ss` all resolve and boot with
result 0, and `ss` resolves but its boot reports a non-zero result, the call
ends in `BUG()`; the boot calls made are exactly those on the entries up to and
including `ss`, in order; the last two actions are the boot of `ss` and the
reset of its flag (no `rproc_put`, nothing on a later entry); and the
`ignore_ssr` flag of `ss` is clear in the state reached. -/
theorem boot_failure_is_fatal (h : Header) (env : Env) (w : World) (state : Nat)
    (pre post : List subsystem_data) (ss : subsystem_data) (rproc : Nat)
    (hs : valid_class h state)
    (hl : w.drv.sub_sys_list = pre ++ ss :: post)
    (hpre : ∀ x ∈ pre, boots env x = true)
    (hres : env.rproc_get_by_phandle ss.rproc_handle = some rproc)
    (hfail : env.rproc_boot rproc ≠ 0) :
    ∃ w', subsystem_resume h env w state = .bug w'
      ∧ boot_calls w'.log = boot_calls w.log ++ indexed 0 (pre ++ [ss])
      ∧ (∃ old fl, w'.log = old ++
          [Action.rproc_boot pre.length ss.name rproc (env.rproc_boot rproc) fl,
           Action.write_ignore_ssr pre.length false])
      ∧ (flags w')[pre.length]? = some false := by
  obtain ⟨W, h1, h2, _, _, h5⟩ := resume_loop_prefix h env state hs pre (ss :: post) 0 w hpre
  have hstep := subsys_resume_valid h env W (0 + pre.length) ss rproc state hs
  refine ⟨(subsys_resume h env W (0 + pre.length) ss rproc state).2, ?_, ?_, ?_, ?_⟩
  · rw [subsystem_resume, hl, h1]
    exact resume_loop_boot_fails h env state _ 0 ss post W rproc hs hres hfail
  · rw [hstep, indexed_append]
    simp [boot_calls_append, boot_calls, h2, indexed]
  · rw [hstep]
    exact ⟨W.log ++ [Action.write_ignore_ssr (0 + pre.length) true],
      (set_ignore_ssr W.drv.sub_sys_list (0 + pre.length) true).map (fun s => s.ignore_ssr),
      by simp⟩
  · rw [hstep]
    have hlen : W.drv.sub_sys_list.length = w.drv.sub_sys_list.length := unflag_length _ _ h5
    have hk : pre.length < W.drv.sub_sys_list.length := by
      rw [hlen, hl]
      simp
    simpa [flags] using flag_after_write W.drv.sub_sys_list pre.length false hk

/-- C3 at the registry `[mpss, lpass, cdsp]` when the boot of lpass fails. -/
theorem boot_failure_is_fatal_witness :
    ∃ w', subsystem_resume hdr (sampleEnv [] [111]) (initWorld registry3) hdr.SUBSYS_HIBERNATE
        = .bug w'
      ∧ boot_calls w'.log = [(0, "mpss"), (1, "lpass")]
      ∧ (∃ old fl, w'.log = old ++
          [Action.rproc_boot 1 "lpass" 111 (-1) fl, Action.write_ignore_ssr 1 false])
      ∧ (flags w')[1]? = some false :=
  boot_failure_is_fatal hdr (sampleEnv [] [111]) (initWorld registry3) hdr.SUBSYS_HIBERNATE
    [mkSub "mpss" 10 hdr.MDSP_BEFORE_POWERDOWN hdr.MDSP_AFTER_POWERUP]
    [mkSub "cdsp" 12 hdr.CDSP_BEFORE_POWERDOWN hdr.CDSP_AFTER_POWERUP]
    (mkSub "lpass" 11 hdr.ADSP_BEFORE_POWERDOWN hdr.ADSP_AFTER_POWERUP) 111
    (Or.inr rfl) rfl (by decide) rfl (by decide)

/-- C4, as stated, fails for `subsystem_resume`: on `[mpss, lpass, cdsp]` the
handle of lpass is the first that does not resolve, but the boot of mpss
reports failure, so the call stops at `BUG()` and does not return `-ENODEV`. -/
theorem unresolved_handle_after_failed_boot :
    resolves (sampleEnv [11] [110])
        (mkSub "mpss" 10 hdr.MDSP_BEFORE_POWERDOWN hdr.MDSP_AFTER_POWERUP) = true
      ∧ resolves (sampleEnv [11] [110])
        (mkSub "lpass" 11 hdr.ADSP_BEFORE_POWERDOWN hdr.ADSP_AFTER_POWERUP) = false
      ∧ (subsystem_resume hdr (sampleEnv [11] [110]) (initWorld registry3)
            hdr.SUBSYS_DEEPSLEEP).isBug = true
      ∧ (subsystem_resume hdr (sampleEnv [11] [110]) (initWorld registry3)
            hdr.SUBSYS_DEEPSLEEP).returned ≠ some (-ENODEV) := by
  decide

/-- C4, amended: for class DeepSleep or Hibernate, let `ss` be the first
registry entry whose handle does not resolve, `pre` the entries before it.
Then `subsystem_suspend` returns `-ENODEV` having shut down exactly the entries
of `pre`, in order; and `subsystem_resume` returns `-ENODEV` having booted
exactly the entries of `pre`, provided their boots all report 0.  In both cases
no call is made on `ss` or a later entry and every flag write is at a position
before that of `ss`. -/
theorem unresolved_handle_stops_iteration (h : Header) (env : Env) (w : World) (state : Nat)
    (pre post : List subsystem_data) (ss : subsystem_data)
    (hs : valid_class h state)
    (hl : w.drv.sub_sys_list = pre ++ ss :: post)
    (hss : resolves env ss = false) :
    ((∀ x ∈ pre, resolves env x = true) →
        ∃ w', subsystem_suspend h env w state = .ret (-ENODEV) w'
          ∧ shutdown_calls w'.log = shutdown_calls w.log ++ indexed 0 pre
          ∧ boot_calls w'.log = boot_calls w.log
          ∧ ∃ new, flag_writes w'.log = flag_writes w.log ++ new
              ∧ ∀ p ∈ new, p.1 < pre.length)
      ∧ ((∀ x ∈ pre, boots env x = true) →
        ∃ w', subsystem_resume h env w state = .ret (-ENODEV) w'
          ∧ boot_calls w'.log = boot_calls w.log ++ indexed 0 pre
          ∧ shutdown_calls w'.log = shutdown_calls w.log
          ∧ ∃ new, flag_writes w'.log = flag_writes w.log ++ new
              ∧ ∀ p ∈ new, p.1 < pre.length) := by
  have hbound : ∀ p ∈ (indexed 0 pre).flatMap (fun p => [(p.1, true), (p.1, false)]),
      p.1 < pre.length := by
    intro p hp
    simp only [List.mem_flatMap, List.mem_cons, List.mem_singleton, List.not_mem_nil,
      or_false] at hp
    obtain ⟨q, hq, hpq⟩ := hp
    have := (indexed_bound 0 pre q hq).2
    rcases hpq with rfl | rfl <;> simpa using this
  constructor
  · intro hpre
    obtain ⟨h1, h2, h3, h4⟩ := suspend_loop_run h env state hs (pre ++ ss :: post) 0 w
    obtain ⟨t1, t2⟩ := takeWhile_stop (resolves env) pre post ss hpre hss
    rw [t1] at h2 h4
    rw [t2] at h1
    refine ⟨(subsystem_suspend_loop h env state 0 (pre ++ ss :: post) 0 w).world, ?_, h2, h3,
      _, h4, hbound⟩
    rw [subsystem_suspend, hl]
    exact h1.trans (by simp)
  · intro hpre
    obtain ⟨W, h1, h2, h3, h4, _⟩ := resume_loop_prefix h env state hs pre (ss :: post) 0 w hpre
    refine ⟨W, ?_, h2, h3, _, h4, hbound⟩
    rw [subsystem_resume, hl, h1]
    exact resume_loop_unresolved h env state _ 0 ss post W hss

/-- C4 amended, at the registry `[mpss, lpass, cdsp]` when the handle of cdsp
does not resolve: both passes act on mpss and lpass only. -/
theorem unresolved_handle_stops_iteration_witness :
    (∃ w', subsystem_suspend hdr (sampleEnv [12] []) (initWorld registry3) hdr.SUBSYS_DEEPSLEEP
          = .ret (-ENODEV) w'
        ∧ shutdown_calls w'.log = [(0, "mpss"), (1, "lpass")]
        ∧ boot_calls w'.log = []
        ∧ ∃ new, flag_writes w'.log = [] ++ new ∧ ∀ p ∈ new, p.1 < 2)
      ∧ (∃ w', subsystem_resume hdr (sampleEnv [12] []) (initWorld registry3) hdr.SUBSYS_DEEPSLEEP
          = .ret (-ENODEV) w'
        ∧ boot_calls w'.log = [(0, "mpss"), (1, "lpass")]
        ∧ shutdown_calls w'.log = []
        ∧ ∃ new, flag_writes w'.log = [] ++ new ∧ ∀ p ∈ new, p.1 < 2) :=
  have key := unresolved_handle_stops_iteration hdr (sampleEnv [12] []) (initWorld registry3)
    hdr.SUBSYS_DEEPSLEEP
    [mkSub "mpss" 10 hdr.MDSP_BEFORE_POWERDOWN hdr.MDSP_AFTER_POWERUP,
     mkSub "lpass" 11 hdr.ADSP_BEFORE_POWERDOWN hdr.ADSP_AFTER_POWERUP]
    [] (mkSub "cdsp" 12 hdr.CDSP_BEFORE_POWERDOWN hdr.CDSP_AFTER_POWERUP)
    (Or.inl rfl) rfl (by decide)
  ⟨key.1 (by decide), key.2 (by decide)⟩

/-- C5: when every handle of the registry resolves, the EnterHibernate command
(either of its two codes) returns 0 and leaves `current_state = HIBERNATE`,
the EnterDeepSleep command returns 0 and leaves `current_state = DEEPSLEEP`,
and either one invokes the shutdown operation once per registered subsystem
in registration order, and no boot: the shutdown calls it adds to the log are
the registry entries with their positions, so the names shut down are the
registry's name list. -/
theorem enter_shuts_down_in_order (h : Header) (env : Env) (w : World) (cmd : Nat)
    (hwf : h.WellFormed)
    (hres : ∀ ss ∈ w.drv.sub_sys_list, resolves env ss = true) :
    ((cmd = h.ENTER_HIBERNATE ∨ cmd = h.POWER_STATE_ENTER_HIBERNATE) →
        ∃ w', ps_ioctl h env w cmd = .ret 0 w'
          ∧ w'.drv.current_state = .HIBERNATE
          ∧ shutdown_calls w'.log = shutdown_calls w.log ++ indexed 0 w.drv.sub_sys_list
          ∧ (shutdown_calls w'.log).map Prod.snd
              = (shutdown_calls w.log).map Prod.snd ++ w.drv.sub_sys_list.map (fun ss => ss.name)
          ∧ boot_calls w'.log = boot_calls w.log)
      ∧ ((cmd = h.ENTER_DEEPSLEEP ∨ cmd = h.POWER_STATE_ENTER_DEEPSLEEP) →
        ∃ w', ps_ioctl h env w cmd = .ret 0 w'
          ∧ w'.drv.current_state = .DEEPSLEEP
          ∧ shutdown_calls w'.log = shutdown_calls w.log ++ indexed 0 w.drv.sub_sys_list
          ∧ (shutdown_calls w'.log).map Prod.snd
              = (shutdown_calls w.log).map Prod.snd ++ w.drv.sub_sys_list.map (fun ss => ss.name)
          ∧ boot_calls w'.log = boot_calls w.log) := by
  obtain ⟨t1, t2⟩ := takeWhile_all (resolves env) w.drv.sub_sys_list hres
  have key : ∀ st, valid_class h st → ∀ s : power_states,
      ∃ w', (match subsystem_suspend h env w st with
              | .bug w1 => Outcome.bug w1
              | .ret r w1 => Outcome.ret r (set_current_state w1 s)) = .ret 0 w'
        ∧ w'.drv.current_state = s
        ∧ shutdown_calls w'.log = shutdown_calls w.log ++ indexed 0 w.drv.sub_sys_list
        ∧ (shutdown_calls w'.log).map Prod.snd
            = (shutdown_calls w.log).map Prod.snd ++ w.drv.sub_sys_list.map (fun ss => ss.name)
        ∧ boot_calls w'.log = boot_calls w.log := by
    intro st hst s
    obtain ⟨h1, h2, h3, _⟩ := suspend_loop_run h env st hst w.drv.sub_sys_list 0 w
    rw [t1] at h2
    rw [t2] at h1
    refine ⟨set_current_state
      (subsystem_suspend_loop h env st 0 w.drv.sub_sys_list 0 w).world s, ?_, rfl, ?_, ?_, ?_⟩
    · have e : subsystem_suspend_loop h env st 0 w.drv.sub_sys_list 0 w
          = .ret 0 (subsystem_suspend_loop h env st 0 w.drv.sub_sys_list 0 w).world :=
        h1.trans (by simp)
      rw [subsystem_suspend]
      generalize (subsystem_suspend_loop h env st 0 w.drv.sub_sys_list 0 w).world = X at e ⊢
      rw [e]
    · simpa [set_current_state] using h2
    · simp only [set_current_state, h2, List.map_append, indexed_map_snd]
    · simpa [set_current_state] using h3
  constructor
  · intro hc
    rw [ps_ioctl_enter_hibernate h hwf env w cmd hc]
    exact key h.SUBSYS_HIBERNATE (Or.inr rfl) .HIBERNATE
  · intro hc
    rw [ps_ioctl_enter_deepsleep h hwf env w cmd hc]
    exact key h.SUBSYS_DEEPSLEEP (Or.inl rfl) .DEEPSLEEP

/-- C5 at the registry `[mpss, lpass, cdsp]`: EnterHibernate shuts down mpss,
lpass, cdsp in this order, returns 0 and leaves the state Hibernate. -/
theorem enter_shuts_down_in_order_witness :
    ∃ w', ps_ioctl hdr (sampleEnv [] []) (initWorld registry3) hdr.ENTER_HIBERNATE = .ret 0 w'
      ∧ w'.drv.current_state = .HIBERNATE
      ∧ shutdown_calls w'.log = [(0, "mpss"), (1, "lpass"), (2, "cdsp")]
      ∧ (shutdown_calls w'.log).map Prod.snd = ["mpss", "lpass", "cdsp"]
      ∧ boot_calls w'.log = [] :=
  (enter_shuts_down_in_order hdr (sampleEnv [] []) (initWorld registry3) hdr.ENTER_HIBERNATE
    (by decide) (by decide)).1 (Or.inl rfl)

/-- C6: for every registry (its names pairwise distinct, as the data model of
the registry has them) whose handles all resolve and whose boots succeed,
EnterDeepSleep followed by ExitDeepSleep both return 0; the first command
shuts down every registered subsystem once, in registration order, and boots
none; the second boots every registered subsystem once, in registration
order, and shuts down none; and every crash-restart notification naming the
subsystem whose shutdown or boot is in flight is discarded by `ps_ssr_cb`, so
that no uevent is published by either command. -/
theorem deep_sleep_round_trip (h : Header) (env : Env) (w : World) (cmd1 cmd2 : Nat)
    (hwf : h.WellFormed)
    (hc1 : cmd1 = h.ENTER_DEEPSLEEP ∨ cmd1 = h.POWER_STATE_ENTER_DEEPSLEEP)
    (hc2 : cmd2 = h.EXIT_DEEPSLEEP_STATE ∨ cmd2 = h.POWER_STATE_EXIT_DEEPSLEEP_STATE)
    (hnd : (w.drv.sub_sys_list.map (fun ss => ss.name)).Nodup)
    (hboot : ∀ ss ∈ w.drv.sub_sys_list, boots env ss = true)
    (hnm : names_in_flight env w.drv.sub_sys_list) :
    ∃ w1 w2, ps_ioctl h env w cmd1 = .ret 0 w1 ∧ ps_ioctl h env w1 cmd2 = .ret 0 w2
      ∧ shutdown_calls w1.log = shutdown_calls w.log ++ indexed 0 w.drv.sub_sys_list
      ∧ boot_calls w1.log = boot_calls w.log
      ∧ shutdown_calls w2.log = shutdown_calls w1.log
      ∧ boot_calls w2.log = boot_calls w1.log ++ indexed 0 w.drv.sub_sys_list
      ∧ w1.uevents = w.uevents ∧ w2.uevents = w.uevents := by
  have hsd : valid_class h h.SUBSYS_DEEPSLEEP := Or.inl rfl
  have hres : ∀ ss ∈ w.drv.sub_sys_list, resolves env ss = true :=
    fun ss hss => resolves_of_boots env ss (hboot ss hss)
  obtain ⟨t1, t2⟩ := takeWhile_all (resolves env) w.drv.sub_sys_list hres
  -- the suspend pass
  obtain ⟨s1, s2, s3, _⟩ := suspend_loop_run h env h.SUBSYS_DEEPSLEEP hsd w.drv.sub_sys_list 0 w
  rw [t1] at s2
  rw [t2] at s1
  have s4 := suspend_loop_quiet h env h.SUBSYS_DEEPSLEEP hsd w.drv.sub_sys_list 0 0 w hnd
    (by simp) hnm
  obtain ⟨_, _, _, s5⟩ := suspend_loop_frame h env h.SUBSYS_DEEPSLEEP w.drv.sub_sys_list 0 0 w
  have e1 : subsystem_suspend_loop h env h.SUBSYS_DEEPSLEEP 0 w.drv.sub_sys_list 0 w
      = .ret 0 (subsystem_suspend_loop h env h.SUBSYS_DEEPSLEEP 0 w.drv.sub_sys_list 0 w).world :=
    s1.trans (by simp)
  generalize (subsystem_suspend_loop h env h.SUBSYS_DEEPSLEEP 0 w.drv.sub_sys_list 0 w).world
    = X at e1 s2 s3 s4 s5
  -- the resume pass, on the state the first command leaves
  have hboot1 : ∀ ss ∈ (set_current_state X .DEEPSLEEP).drv.sub_sys_list, boots env ss = true :=
    boots_of_unflag env _ _ s5.symm hboot
  have hnm1 : names_in_flight env (set_current_state X .DEEPSLEEP).drv.sub_sys_list :=
    names_in_flight_of_unflag env _ _ s5.symm hnm
  have hnames : (set_current_state X .DEEPSLEEP).drv.sub_sys_list.map (fun ss => ss.name)
      = w.drv.sub_sys_list.map (fun ss => ss.name) := names_of_unflag _ _ s5
  have hidx : indexed 0 (set_current_state X .DEEPSLEEP).drv.sub_sys_list
      = indexed 0 w.drv.sub_sys_list := indexed_of_unflag 0 _ _ s5
  obtain ⟨W, r1, r2, r3, _, _⟩ := resume_loop_prefix h env h.SUBSYS_DEEPSLEEP hsd
    (set_current_state X .DEEPSLEEP).drv.sub_sys_list [] 0 (set_current_state X .DEEPSLEEP) hboot1
  have r4 := resume_loop_quiet h env h.SUBSYS_DEEPSLEEP hsd
    (set_current_state X .DEEPSLEEP).drv.sub_sys_list 0 0 (set_current_state X .DEEPSLEEP)
    (by rw [hnames]; exact hnd) (by simp) hnm1
  rw [List.append_nil] at r1
  have e2 : subsystem_resume_loop h env h.SUBSYS_DEEPSLEEP 0
      (set_current_state X .DEEPSLEEP).drv.sub_sys_list 0 (set_current_state X .DEEPSLEEP)
      = .ret 0 W := by
    rw [r1]
    simp [subsystem_resume_loop]
  rw [e2] at r4
  refine ⟨set_current_state X .DEEPSLEEP, W, ?_, ?_, ?_, ?_, ?_, ?_, ?_, ?_⟩
  · rw [ps_ioctl_enter_deepsleep h hwf env w cmd1 hc1, subsystem_suspend, e1]
  · rw [ps_ioctl_exit_deepsleep h hwf env _ cmd2 hc2, subsystem_resume, e2]
  · simpa [set_current_state] using s2
  · simpa [set_current_state] using s3
  · exact r3
  · rw [r2, hidx]
  · simpa [set_current_state] using s4
  · simp only [Outcome.world] at r4
    rw [r4]
    simpa [set_current_state] using s4

/-- C6 at the registry `[mpss, lpass, cdsp]`: EnterDeepSleep then
ExitDeepSleep shut down and then boot mpss, lpass, cdsp, and although every
shutdown and boot raises its notification no uevent is published. -/
theorem deep_sleep_round_trip_witness :
    ∃ w1 w2,
      ps_ioctl hdr (sampleEnv [] []) (initWorld registry3) hdr.ENTER_DEEPSLEEP = .ret 0 w1
      ∧ ps_ioctl hdr (sampleEnv [] []) w1 hdr.EXIT_DEEPSLEEP_STATE = .ret 0 w2
      ∧ shutdown_calls w1.log = [(0, "mpss"), (1, "lpass"), (2, "cdsp")]
      ∧ boot_calls w1.log = []
      ∧ shutdown_calls w2.log = shutdown_calls w1.log
      ∧ boot_calls w2.log = boot_calls w1.log ++ [(0, "mpss"), (1, "lpass"), (2, "cdsp")]
      ∧ w1.uevents = [] ∧ w2.uevents = [] :=
  deep_sleep_round_trip hdr (sampleEnv [] []) (initWorld registry3)
    hdr.ENTER_DEEPSLEEP hdr.EXIT_DEEPSLEEP_STATE (by decide) (Or.inl rfl) (Or.inl rfl)
    (by decide) (by decide) (sample_names_in_flight [] [])

/-- C7: the EnterDeepSleep command always returns, with 0 when every handle
resolves and with `-ENODEV` otherwise, and in both cases `current_state` is
DEEPSLEEP afterwards, whatever it was before; likewise EnterHibernate leaves
HIBERNATE. -/
theorem enter_sets_state (h : Header) (env : Env) (w : World) (cmd : Nat)
    (hwf : h.WellFormed) :
    ((cmd = h.ENTER_DEEPSLEEP ∨ cmd = h.POWER_STATE_ENTER_DEEPSLEEP) →
        ∃ w', ps_ioctl h env w cmd
            = .ret (if w.drv.sub_sys_list.all (resolves env) then 0 else -ENODEV) w'
          ∧ w'.drv.current_state = .DEEPSLEEP)
      ∧ ((cmd = h.ENTER_HIBERNATE ∨ cmd = h.POWER_STATE_ENTER_HIBERNATE) →
        ∃ w', ps_ioctl h env w cmd
            = .ret (if w.drv.sub_sys_list.all (resolves env) then 0 else -ENODEV) w'
          ∧ w'.drv.current_state = .HIBERNATE) := by
  have key : ∀ st, valid_class h st → ∀ s : power_states,
      ∃ w', (match subsystem_suspend h env w st with
              | .bug w1 => Outcome.bug w1
              | .ret r w1 => Outcome.ret r (set_current_state w1 s))
            = .ret (if w.drv.sub_sys_list.all (resolves env) then 0 else -ENODEV) w'
        ∧ w'.drv.current_state = s := by
    intro st hst s
    have e := (suspend_loop_run h env st hst w.drv.sub_sys_list 0 w).1
    refine ⟨set_current_state
      (subsystem_suspend_loop h env st 0 w.drv.sub_sys_list 0 w).world s, ?_, rfl⟩
    rw [subsystem_suspend]
    generalize (subsystem_suspend_loop h env st 0 w.drv.sub_sys_list 0 w).world = X at e ⊢
    rw [e]
  constructor
  · intro hc
    rw [ps_ioctl_enter_deepsleep h hwf env w cmd hc]
    exact key h.SUBSYS_DEEPSLEEP (Or.inl rfl) .DEEPSLEEP
  · intro hc
    rw [ps_ioctl_enter_hibernate h hwf env w cmd hc]
    exact key h.SUBSYS_HIBERNATE (Or.inr rfl) .HIBERNATE

/-- C7 at the registry `[mpss, lpass, cdsp]` when the handle of lpass does not
resolve: EnterDeepSleep returns `-ENODEV` and the state is DEEPSLEEP. -/
theorem enter_sets_state_witness :
    ∃ w', ps_ioctl hdr (sampleEnv [11] []) (initWorld registry3) hdr.ENTER_DEEPSLEEP
        = .ret (-ENODEV) w'
      ∧ w'.drv.current_state = .DEEPSLEEP :=
  (enter_sets_state hdr (sampleEnv [11] []) (initWorld registry3) hdr.ENTER_DEEPSLEEP
    (by decide)).1 (Or.inl rfl)

/-- C8: the ExitDeepSleep and ExitHibernate commands leave `current_state`,
the firmware-assisted-suspend flag and the wake lock as they were, for every
prior state and however `subsystem_resume` ends (0, `-ENODEV` or `BUG()`); so
after an EnterDeepSleep that returned, an Exit command leaves `current_state`
DEEPSLEEP, not ACTIVE. -/
theorem exit_keeps_state (h : Header) (env : Env) (cmd : Nat)
    (hwf : h.WellFormed)
    (hc : cmd = h.EXIT_DEEPSLEEP_STATE ∨ cmd = h.POWER_STATE_EXIT_DEEPSLEEP_STATE
      ∨ cmd = h.EXIT_HIBERNATE_STATE ∨ cmd = h.POWER_STATE_EXIT_HIBERNATE_STATE) :
    (∀ w : World,
        (ps_ioctl h env w cmd).world.drv.current_state = w.drv.current_state
          ∧ (ps_ioctl h env w cmd).world.suspend_via_firmware = w.suspend_via_firmware
          ∧ (ps_ioctl h env w cmd).world.drv.ps_ws_active = w.drv.ps_ws_active)
      ∧ (∀ (w : World) (env1 : Env) (cmd1 : Nat) (r1 : Int) (w1 : World),
          (cmd1 = h.ENTER_DEEPSLEEP ∨ cmd1 = h.POWER_STATE_ENTER_DEEPSLEEP) →
          ps_ioctl h env1 w cmd1 = .ret r1 w1 →
          (ps_ioctl h env w1 cmd).world.drv.current_state = .DEEPSLEEP
            ∧ (ps_ioctl h env w1 cmd).world.drv.current_state ≠ .ACTIVE) := by
  have frame : ∀ w : World,
      (ps_ioctl h env w cmd).world.drv.current_state = w.drv.current_state
        ∧ (ps_ioctl h env w cmd).world.suspend_via_firmware = w.suspend_via_firmware
        ∧ (ps_ioctl h env w cmd).world.drv.ps_ws_active = w.drv.ps_ws_active := by
    intro w
    have hex : ps_ioctl h env w cmd = subsystem_resume h env w h.SUBSYS_DEEPSLEEP
        ∨ ps_ioctl h env w cmd = subsystem_resume h env w h.SUBSYS_HIBERNATE := by
      rcases hc with hc | hc | hc | hc
      · exact Or.inl (ps_ioctl_exit_deepsleep h hwf env w cmd (Or.inl hc))
      · exact Or.inl (ps_ioctl_exit_deepsleep h hwf env w cmd (Or.inr hc))
      · exact Or.inr (ps_ioctl_exit_hibernate h hwf env w cmd (Or.inl hc))
      · exact Or.inr (ps_ioctl_exit_hibernate h hwf env w cmd (Or.inr hc))
    rcases hex with e | e <;>
      · rw [e, subsystem_resume]
        obtain ⟨f1, f2, f3, _⟩ := resume_loop_frame h env _ w.drv.sub_sys_list 0 0 w
        exact ⟨f1, f3, f2⟩
  refine ⟨frame, ?_⟩
  intro w env1 cmd1 r1 w1 hc1 hret
  rw [ps_ioctl_enter_deepsleep h hwf env1 w cmd1 hc1] at hret
  have hw1 : w1.drv.current_state = .DEEPSLEEP := entered_state _ _ r1 w1 hret
  rw [(frame w1).1, hw1]
  exact ⟨rfl, by decide⟩

/-- C8 at the registry `[mpss, lpass, cdsp]`: EnterDeepSleep followed by a
successful ExitDeepSleep leaves the state DEEPSLEEP. -/
theorem exit_keeps_state_witness :
    (ps_ioctl hdr (sampleEnv [] [])
        (ps_ioctl hdr (sampleEnv [] []) (initWorld registry3) hdr.ENTER_DEEPSLEEP).world
        hdr.EXIT_DEEPSLEEP_STATE).returned = some 0
      ∧ (ps_ioctl hdr (sampleEnv [] [])
          (ps_ioctl hdr (sampleEnv [] []) (initWorld registry3) hdr.ENTER_DEEPSLEEP).world
          hdr.EXIT_DEEPSLEEP_STATE).world.drv.current_state = .DEEPSLEEP
      ∧ (ps_ioctl hdr (sampleEnv [] [])
          (ps_ioctl hdr (sampleEnv [] []) (initWorld registry3) hdr.ENTER_DEEPSLEEP).world
          hdr.EXIT_DEEPSLEEP_STATE).world.drv.current_state ≠ .ACTIVE :=
  ⟨by decide,
   (exit_keeps_state hdr (sampleEnv [] []) hdr.EXIT_DEEPSLEEP_STATE (by decide)
      (Or.inl rfl)).2 (initWorld registry3) (sampleEnv [] []) hdr.ENTER_DEEPSLEEP 0
      (ps_ioctl hdr (sampleEnv [] []) (initWorld registry3) hdr.ENTER_DEEPSLEEP).world
      (Or.inl rfl) rfl⟩

/-- C9: for a command code that is none of the case labels, `ps_ioctl` returns
`-ENOIOCTLCMD` and the whole state is as before (current state, suspend flag,
wake lock, every `ignore_ssr` flag, no call logged, no uevent); for each of
the deprecated codes it returns 0, the whole state again as before. -/
theorem unknown_and_deprecated_commands (h : Header) (env : Env) (w : World) (cmd : Nat) :
    (cmd ∉ h.caseLabels → ps_ioctl h env w cmd = .ret (-ENOIOCTLCMD) w)
      ∧ (h.WellFormed → cmd ∈ h.deprecatedLabels → ps_ioctl h env w cmd = .ret 0 w) :=
  ⟨fun hc => ps_ioctl_unknown h env w cmd hc,
   fun hwf hc => ps_ioctl_deprecated h hwf env w cmd hc⟩

/-- C9 at the code 999, which is no case label, and at `MODEM_SUSPEND`. -/
theorem unknown_and_deprecated_commands_witness :
    ps_ioctl hdr (sampleEnv [] []) (initWorld registry3) 999
        = .ret (-ENOIOCTLCMD) (initWorld registry3)
      ∧ ps_ioctl hdr (sampleEnv [] []) (initWorld registry3) hdr.MODEM_SUSPEND
        = .ret 0 (initWorld registry3) :=
  ⟨(unknown_and_deprecated_commands hdr (sampleEnv [] []) (initWorld registry3) 999).1
      (by decide),
   (unknown_and_deprecated_commands hdr (sampleEnv [] []) (initWorld registry3)
      hdr.MODEM_SUSPEND).2 (by decide) (by decide)⟩

/-- C10: `ps_ssr_cb` discards a notification, returning `NOTIFY_DONE` with the
state unchanged (no uevent), for every opcode, when no registry entry has the
notified name, and when the first entry that has it has `ignore_ssr` set. -/
theorem ssr_notification_discarded (w : World) (opcode : Nat) (name : String) :
    ((∀ ss ∈ w.drv.sub_sys_list, ss.name ≠ name) →
        ps_ssr_cb w opcode name = (NOTIFY_DONE, w))
      ∧ (∀ (pre post : List subsystem_data) (ss : subsystem_data),
          w.drv.sub_sys_list = pre ++ ss :: post →
          (∀ x ∈ pre, x.name ≠ name) → ss.name = name → ss.ignore_ssr = true →
          ps_ssr_cb w opcode name = (NOTIFY_DONE, w)) := by
  constructor
  · intro hl
    simp only [ps_ssr_cb, find_name_none _ name hl]
  · intro pre post ss hl hpre hss hig
    simp only [ps_ssr_cb, hl, find_name_first pre post ss name hpre hss, hig, if_true]

/-- C10 on `[mpss, lpass, cdsp]`: a notification for the unregistered name
`wpss` is discarded, and so is one for lpass while its flag is set. -/
theorem ssr_notification_discarded_witness :
    ps_ssr_cb (initWorld registry3) QCOM_SSR_BEFORE_SHUTDOWN "wpss"
        = (NOTIFY_DONE, initWorld registry3)
      ∧ ps_ssr_cb (initWorld (set_ignore_ssr registry3 1 true)) QCOM_SSR_BEFORE_SHUTDOWN "lpass"
        = (NOTIFY_DONE, initWorld (set_ignore_ssr registry3 1 true)) :=
  ⟨(ssr_notification_discarded (initWorld registry3) QCOM_SSR_BEFORE_SHUTDOWN "wpss").1
      (by decide),
   (ssr_notification_discarded (initWorld (set_ignore_ssr registry3 1 true))
      QCOM_SSR_BEFORE_SHUTDOWN "lpass").2
      [mkSub "mpss" 10 hdr.MDSP_BEFORE_POWERDOWN hdr.MDSP_AFTER_POWERUP]
      [mkSub "cdsp" 12 hdr.CDSP_BEFORE_POWERDOWN hdr.CDSP_AFTER_POWERUP]
      { mkSub "lpass" 11 hdr.ADSP_BEFORE_POWERDOWN hdr.ADSP_AFTER_POWERUP with
        ignore_ssr := true }
      rfl (by decide) rfl rfl⟩

/-- C11: for every registered subsystem `ss` whose `ignore_ssr` flag is clear
(no entry before it has its name: the names of a registry are unique), a
before-shutdown notification naming it publishes exactly one uevent, that of
its enter event, an after-powerup notification exactly one, that of its exit
event, and a notification of any other phase publishes nothing; in all three
cases nothing else of the state changes (current state, suspend flag, wake
lock, registry and its flags, log). -/
theorem ssr_notification_emits (w : World) (opcode : Nat)
    (pre post : List subsystem_data) (ss : subsystem_data)
    (hl : w.drv.sub_sys_list = pre ++ ss :: post)
    (hpre : ∀ x ∈ pre, x.name ≠ ss.name)
    (hflag : ss.ignore_ssr = false) :
    (opcode = QCOM_SSR_BEFORE_SHUTDOWN →
        ps_ssr_cb w opcode ss.name
          = (NOTIFY_DONE, { w with uevents := w.uevents ++ [event_string ss.enter] }))
      ∧ (opcode = QCOM_SSR_AFTER_POWERUP →
        ps_ssr_cb w opcode ss.name
          = (NOTIFY_DONE, { w with uevents := w.uevents ++ [event_string ss.exit] }))
      ∧ (opcode ≠ QCOM_SSR_BEFORE_SHUTDOWN → opcode ≠ QCOM_SSR_AFTER_POWERUP →
        ps_ssr_cb w opcode ss.name = (NOTIFY_DONE, w)) := by
  have hfind := find_name_first pre post ss ss.name hpre rfl
  refine ⟨?_, ?_, ?_⟩
  · intro h1
    simp [ps_ssr_cb, hl, hfind, hflag, h1, send_uevent]
  · intro h2
    have hne : QCOM_SSR_AFTER_POWERUP ≠ QCOM_SSR_BEFORE_SHUTDOWN := by decide
    simp [ps_ssr_cb, hl, hfind, hflag, h2, hne, send_uevent]
  · intro h1 h2
    simp [ps_ssr_cb, hl, hfind, hflag, h1, h2]

/-- C11 on `[mpss, lpass, cdsp]`: a before-shutdown notification for
lpass publishes the uevent of `ADSP_BEFORE_POWERDOWN` and nothing else
changes. -/
theorem ssr_notification_emits_witness :
    ps_ssr_cb (initWorld registry3) QCOM_SSR_BEFORE_SHUTDOWN "lpass"
      = (NOTIFY_DONE,
          { initWorld registry3 with uevents := [event_string hdr.ADSP_BEFORE_POWERDOWN] }) :=
  (ssr_notification_emits (initWorld registry3) QCOM_SSR_BEFORE_SHUTDOWN
    [mkSub "mpss" 10 hdr.MDSP_BEFORE_POWERDOWN hdr.MDSP_AFTER_POWERUP]
    [mkSub "cdsp" 12 hdr.CDSP_BEFORE_POWERDOWN hdr.CDSP_AFTER_POWERUP]
    (mkSub "lpass" 11 hdr.ADSP_BEFORE_POWERDOWN hdr.ADSP_AFTER_POWERUP)
    rfl (by decide) rfl).1 rfl

/-- C13: for every prior state and every value of the suspend flag, a
`PM_HIBERNATION_PREPARE` notification publishes exactly one uevent, that of
`PREPARE_FOR_HIBERNATION`, and sets `current_state` to HIBERNATE; the log is
unchanged (no shutdown or boot, no flag write), and so are the suspend flag,
the wake lock and the registry with its flags. -/
theorem hibernation_prepare_emits (h : Header) (w : World) :
    ps_pm_cb h w PM_HIBERNATION_PREPARE
        = (NOTIFY_DONE,
            { w with
              drv := { w.drv with current_state := .HIBERNATE }
              uevents := w.uevents ++ [event_string h.PREPARE_FOR_HIBERNATION] })
      ∧ (ps_pm_cb h w PM_HIBERNATION_PREPARE).2.uevents
          = w.uevents ++ [event_string h.PREPARE_FOR_HIBERNATION]
      ∧ (ps_pm_cb h w PM_HIBERNATION_PREPARE).2.drv.current_state = .HIBERNATE
      ∧ (ps_pm_cb h w PM_HIBERNATION_PREPARE).2.log = w.log
      ∧ (ps_pm_cb h w PM_HIBERNATION_PREPARE).2.suspend_via_firmware = w.suspend_via_firmware
      ∧ (ps_pm_cb h w PM_HIBERNATION_PREPARE).2.drv.sub_sys_list = w.drv.sub_sys_list := by
  have e : ps_pm_cb h w PM_HIBERNATION_PREPARE
      = (NOTIFY_DONE,
          { w with
            drv := { w.drv with current_state := .HIBERNATE }
            uevents := w.uevents ++ [event_string h.PREPARE_FOR_HIBERNATION] }) := by
    have n1 : PM_HIBERNATION_PREPARE ≠ PM_SUSPEND_PREPARE := by decide
    have n2 : PM_HIBERNATION_PREPARE ≠ PM_POST_SUSPEND := by decide
    simp only [ps_pm_cb, if_neg n1, if_neg n2, if_true, set_current_state, send_uevent]
  rw [e]
  exact ⟨rfl, rfl, rfl, rfl, rfl, rfl⟩

/-- C17, as stated, fails: the class is checked per subsystem, after its
handle was resolved.  With class 7, neither DeepSleep nor Hibernate, both
passes return 0 on an empty registry, and return `-ENODEV` on
`[mpss, lpass, cdsp]` when the handle of mpss does not resolve; neither ends
in `BUG()`. -/
theorem invalid_class_may_return :
    ¬ valid_class hdr 7
      ∧ subsystem_suspend hdr (sampleEnv [] []) (initWorld []) 7 = .ret 0 (initWorld [])
      ∧ subsystem_resume hdr (sampleEnv [] []) (initWorld []) 7 = .ret 0 (initWorld [])
      ∧ subsystem_suspend hdr (sampleEnv [10] []) (initWorld registry3) 7
          = .ret (-ENODEV) (initWorld registry3)
      ∧ subsystem_resume hdr (sampleEnv [10] []) (initWorld registry3) 7
          = .ret (-ENODEV) (initWorld registry3) := by
  refine ⟨by decide, rfl, rfl, rfl, rfl⟩

/-- C17, amended: for every class value other than DeepSleep and Hibernate,
`subsystem_suspend` and `subsystem_resume` end in `BUG()` when the registry is
not empty and the handle of its first subsystem resolves; they return 0 on an
empty registry and `-ENODEV` when the first handle does not resolve.  In all
three cases the state is the one before the call: no shutdown or boot is
invoked and no `ignore_ssr` flag is written. -/
theorem invalid_class_fails_fast (h : Header) (env : Env) (w : World) (state : Nat)
    (hs : ¬ valid_class h state) :
    (∀ ss rest, w.drv.sub_sys_list = ss :: rest → resolves env ss = true →
        subsystem_suspend h env w state = .bug w ∧ subsystem_resume h env w state = .bug w)
      ∧ (∀ ss rest, w.drv.sub_sys_list = ss :: rest → resolves env ss = false →
        subsystem_suspend h env w state = .ret (-ENODEV) w
          ∧ subsystem_resume h env w state = .ret (-ENODEV) w)
      ∧ (w.drv.sub_sys_list = [] →
        subsystem_suspend h env w state = .ret 0 w ∧ subsystem_resume h env w state = .ret 0 w) := by
  refine ⟨?_, ?_, ?_⟩
  · intro ss rest hl hr
    unfold resolves at hr
    cases hres : env.rproc_get_by_phandle ss.rproc_handle with
    | none => simp [hres] at hr
    | some rproc =>
      simp [subsystem_suspend, subsystem_resume, hl, subsystem_suspend_loop,
        subsystem_resume_loop, hres, subsys_suspend_invalid h env w 0 ss rproc state hs,
        subsys_resume_invalid h env w 0 ss rproc state hs]
  · intro ss rest hl hr
    unfold resolves at hr
    cases hres : env.rproc_get_by_phandle ss.rproc_handle with
    | none =>
      simp [subsystem_suspend, subsystem_resume, hl, subsystem_suspend_loop,
        subsystem_resume_loop, hres]
    | some rproc => simp [hres] at hr
  · intro hl
    simp [subsystem_suspend, subsystem_resume, hl, subsystem_suspend_loop,
      subsystem_resume_loop]

/-- C17 amended, on `[mpss, lpass, cdsp]` with every handle resolving and
class 7: both passes end in `BUG()` with the state untouched. -/
theorem invalid_class_fails_fast_witness :
    ¬ valid_class hdr 7
      ∧ subsystem_suspend hdr (sampleEnv [] []) (initWorld registry3) 7
          = .bug (initWorld registry3)
      ∧ subsystem_resume hdr (sampleEnv [] []) (initWorld registry3) 7
          = .bug (initWorld registry3) :=
  ⟨by decide,
   (invalid_class_fails_fast hdr (sampleEnv [] []) (initWorld registry3) 7 (by decide)).1
     (mkSub "mpss" 10 hdr.MDSP_BEFORE_POWERDOWN hdr.MDSP_AFTER_POWERUP)
     [mkSub "lpass" 11 hdr.ADSP_BEFORE_POWERDOWN hdr.ADSP_AFTER_POWERUP,
      mkSub "cdsp" 12 hdr.CDSP_BEFORE_POWERDOWN hdr.CDSP_AFTER_POWERUP]
     rfl rfl⟩

/-- C19: for each of the three power states, `state_show` leaves in the buffer
the name of `current_state` in full ("active", "deepsleep", "hibernate")
followed by exactly one newline, and returns the length of the name plus one:
the bound `len + 2` given to `scnprintf` cuts nothing off. -/
theorem state_show_writes_name (w : World) :
    state_show w
        = (((power_state w.drv.current_state).length : Int) + 1,
            power_state w.drv.current_state ++ "\n")
      ∧ scnprintf ((power_state w.drv.current_state).length + 2)
            (power_state w.drv.current_state ++ "\n")
          = power_state w.drv.current_state ++ "\n"
      ∧ state_show (set_current_state w .ACTIVE) = (7, "active\n")
      ∧ state_show (set_current_state w .DEEPSLEEP) = (10, "deepsleep\n")
      ∧ state_show (set_current_state w .HIBERNATE) = (10, "hibernate\n") := by
  have key : ∀ s : power_states,
      scnprintf ((power_state s).length + 2) (power_state s ++ "\n") = power_state s ++ "\n" := by
    intro s
    cases s <;> decide
  have val : ∀ w1 : World, state_show w1
      = (((power_state w1.drv.current_state).length : Int) + 1,
          power_state w1.drv.current_state ++ "\n") := by
    intro w1
    unfold state_show
    simp only [key]
    cases w1.drv.current_state <;> decide
  refine ⟨val w, key _, ?_, ?_, ?_⟩
  · rw [val]
    simp only [set_current_state]
    decide
  · rw [val]
    simp only [set_current_state]
    decide
  · rw [val]
    simp only [set_current_state]
    decide

/-- C12: let a sequence of control commands and notifications, handled from a
state with the suspend flag clear, reach state `w`.  If a `PM_POST_SUSPEND`
notification then changes anything (a uevent, the wake lock), an earlier
`PM_SUSPEND_PREPARE` of the sequence was handled while `current_state` was
DEEPSLEEP; without such an earlier notification `PM_POST_SUSPEND` leaves the
state as it is: no uevent, no wake lock.  And when the suspend flag is set,
`PM_POST_SUSPEND` does acquire the wake lock and publish `EXIT_DEEP_SLEEP`. -/
theorem post_suspend_needs_prepare (h : Header) (w0 w : World) (inputs : List Input)
    (h0 : w0.suspend_via_firmware = false)
    (hrun : run h w0 inputs = some w) :
    (ps_pm_cb h w PM_POST_SUSPEND ≠ (NOTIFY_DONE, w) → prepared_in_deepsleep h w0 inputs)
      ∧ (¬ prepared_in_deepsleep h w0 inputs →
          ps_pm_cb h w PM_POST_SUSPEND = (NOTIFY_DONE, w))
      ∧ (w.suspend_via_firmware = true →
          ps_pm_cb h w PM_POST_SUSPEND
            = (NOTIFY_DONE, send_uevent (pm_stay_awake w) h.EXIT_DEEP_SLEEP)) := by
  have n1 : PM_POST_SUSPEND ≠ PM_SUSPEND_PREPARE := by decide
  have hclear : w.suspend_via_firmware = false →
      ps_pm_cb h w PM_POST_SUSPEND = (NOTIFY_DONE, w) := by
    intro hf
    simp [ps_pm_cb, n1, hf]
  have horigin : w.suspend_via_firmware = true → prepared_in_deepsleep h w0 inputs := by
    intro hf
    rcases run_flag_origin h inputs w0 w hrun hf with hc | hp
    · rw [h0] at hc
      exact absurd hc (by decide)
    · exact hp
  refine ⟨?_, ?_, ?_⟩
  · intro hne
    by_cases hf : w.suspend_via_firmware = true
    · exact horigin hf
    · exact absurd (hclear (by simpa using hf)) hne
  · intro hnp
    by_cases hf : w.suspend_via_firmware = true
    · exact absurd (horigin hf) hnp
    · exact hclear (by simpa using hf)
  · intro hf
    simp [ps_pm_cb, n1, hf]

/-- C12 on `[mpss, lpass, cdsp]`: after EnterDeepSleep and `PM_SUSPEND_PREPARE`
a `PM_POST_SUSPEND` publishes `EXIT_DEEP_SLEEP` and holds the wake lock; after
EnterHibernate and `PM_SUSPEND_PREPARE` nothing of the kind was prepared and
`PM_POST_SUSPEND` changes nothing. -/
theorem post_suspend_needs_prepare_witness :
    (∃ w, run hdr (initWorld registry3)
          [Input.ioctl (sampleEnv [] []) hdr.ENTER_DEEPSLEEP, Input.pm PM_SUSPEND_PREPARE]
          = some w
        ∧ (ps_pm_cb hdr w PM_POST_SUSPEND).2.uevents = [event_string hdr.EXIT_DEEP_SLEEP]
        ∧ (ps_pm_cb hdr w PM_POST_SUSPEND).2.drv.ps_ws_active = true)
      ∧ (∃ w, run hdr (initWorld registry3)
          [Input.ioctl (sampleEnv [] []) hdr.ENTER_HIBERNATE, Input.pm PM_SUSPEND_PREPARE]
          = some w
        ∧ ps_pm_cb hdr w PM_POST_SUSPEND = (NOTIFY_DONE, w)) :=
  ⟨⟨_, rfl,
    congrArg (fun p : Int × World => p.2.uevents)
      ((post_suspend_needs_prepare hdr (initWorld registry3) _
        [Input.ioctl (sampleEnv [] []) hdr.ENTER_DEEPSLEEP, Input.pm PM_SUSPEND_PREPARE]
        rfl rfl).2.2 rfl),
    congrArg (fun p : Int × World => p.2.drv.ps_ws_active)
      ((post_suspend_needs_prepare hdr (initWorld registry3) _
        [Input.ioctl (sampleEnv [] []) hdr.ENTER_DEEPSLEEP, Input.pm PM_SUSPEND_PREPARE]
        rfl rfl).2.2 rfl)⟩,
   ⟨_, rfl,
    (post_suspend_needs_prepare hdr (initWorld registry3) _
      [Input.ioctl (sampleEnv [] []) hdr.ENTER_HIBERNATE, Input.pm PM_SUSPEND_PREPARE]
      rfl rfl).2.1 (by
        rintro ⟨pre, post, w1, e, hr, hd⟩
        match pre, e, hr with
        | [], e, _ => simp at e
        | [a], e, hr =>
          simp only [List.cons_append, List.nil_append, List.cons.injEq, and_true] at e
          obtain ⟨e1, _⟩ := e
          subst e1
          have hw1 : w1 = (ps_ioctl hdr (sampleEnv [] []) (initWorld registry3)
              hdr.ENTER_HIBERNATE).world := (Option.some.inj hr).symm
          rw [hw1] at hd
          exact absurd hd (by decide)
        | a :: b :: c, e, _ =>
          have := congrArg List.length e
          simp at this)⟩⟩

/-- C20: after every sequence of control commands, crash-restart notifications
and power-management notifications handled from a state with the wake lock
not held (the initial state is one), the wake lock is held only if the
firmware-assisted-suspend flag is set; and an EnterActive command issued then
(either of its codes) returns 0 and leaves the flag clear, the wake lock not
held and `current_state` ACTIVE. -/
theorem wake_lock_only_with_flag (h : Header) (w0 w : World) (inputs : List Input)
    (hws : w0.drv.ps_ws_active = false)
    (hrun : run h w0 inputs = some w) :
    (w.drv.ps_ws_active = true → w.suspend_via_firmware = true)
      ∧ ∀ (env : Env) (cmd : Nat), cmd = h.LPM_ACTIVE ∨ cmd = h.POWER_STATE_LPM_ACTIVE →
          ∃ w', ps_ioctl h env w cmd = .ret 0 w'
            ∧ w'.suspend_via_firmware = false
            ∧ w'.drv.ps_ws_active = false
            ∧ w'.drv.current_state = .ACTIVE := by
  have hinv : w.drv.ps_ws_active = true → w.suspend_via_firmware = true :=
    run_lock_invariant h inputs w0 w hrun (by
      intro hc
      rw [hws] at hc
      exact absurd hc (by decide))
  refine ⟨hinv, ?_⟩
  intro env cmd hc
  rw [ps_ioctl_active h env w cmd hc]
  refine ⟨_, rfl, ?_, ?_, ?_⟩
  · by_cases hf : w.suspend_via_firmware = true
    · simp [set_current_state, pm_relax, pm_suspend_clear_flags, hf]
    · simp [set_current_state, hf]
  · by_cases hf : w.suspend_via_firmware = true
    · simp [set_current_state, pm_relax, pm_suspend_clear_flags, hf]
    · have hno : w.drv.ps_ws_active ≠ true := fun hc => hf (hinv hc)
      simpa [set_current_state, hf] using hno
  · by_cases hf : w.suspend_via_firmware = true <;> simp [set_current_state, pm_relax,
      pm_suspend_clear_flags, hf]

/-- C20 on `[mpss, lpass, cdsp]`: after EnterDeepSleep, `PM_SUSPEND_PREPARE`
and `PM_POST_SUSPEND` the wake lock is held and the flag is set; EnterActive
then releases the lock, clears the flag and sets the state ACTIVE. -/
theorem wake_lock_only_with_flag_witness :
    ∃ w, run hdr (initWorld registry3)
          [Input.ioctl (sampleEnv [] []) hdr.ENTER_DEEPSLEEP, Input.pm PM_SUSPEND_PREPARE,
           Input.pm PM_POST_SUSPEND] = some w
      ∧ w.drv.ps_ws_active = true
      ∧ (w.drv.ps_ws_active = true → w.suspend_via_firmware = true)
      ∧ ∃ w', ps_ioctl hdr (sampleEnv [] []) w hdr.LPM_ACTIVE = .ret 0 w'
          ∧ w'.suspend_via_firmware = false
          ∧ w'.drv.ps_ws_active = false
          ∧ w'.drv.current_state = .ACTIVE :=
  ⟨_, rfl, rfl,
   (wake_lock_only_with_flag hdr (initWorld registry3) _
      [Input.ioctl (sampleEnv [] []) hdr.ENTER_DEEPSLEEP, Input.pm PM_SUSPEND_PREPARE,
       Input.pm PM_POST_SUSPEND] rfl rfl).1,
   (wake_lock_only_with_flag hdr (initWorld registry3) _
      [Input.ioctl (sampleEnv [] []) hdr.ENTER_DEEPSLEEP, Input.pm PM_SUSPEND_PREPARE,
       Input.pm PM_POST_SUSPEND] rfl rfl).2 (sampleEnv [] []) hdr.LPM_ACTIVE (Or.inl rfl)⟩

/-- C18: for every 32-bit signed event id, the string `send_uevent` formats is
exactly "POWER_STATE_EVENT = " followed by the decimal text of the id; it has
at most 31 characters, so with its terminator it fits the buffer of
`STRING_LEN` = 32 bytes and `scnprintf` cuts nothing off; this is the string
`send_uevent` publishes. -/
theorem event_string_not_truncated (event : Int)
    (hlo : -2 ^ 31 ≤ event) (hhi : event < 2 ^ 31) :
    event_string event = "POWER_STATE_EVENT = " ++ toString event
      ∧ (event_string event).length ≤ 31
      ∧ (event_string event).length + 1 ≤ STRING_LEN
      ∧ ∀ w : World,
          (send_uevent w event).uevents
            = w.uevents ++ ["POWER_STATE_EVENT = " ++ toString event] := by
  have hd := decimal_length event hlo hhi
  have hp : "POWER_STATE_EVENT = ".length = 20 := by decide
  have hlen : ("POWER_STATE_EVENT = " ++ toString event).length ≤ 31 := by
    rw [String.length_append, hp]
    omega
  have he : event_string event = "POWER_STATE_EVENT = " ++ toString event := by
    unfold event_string scnprintf STRING_LEN
    exact take_all _ 31 hlen
  refine ⟨he, ?_, ?_, ?_⟩
  · rw [he]
    exact hlen
  · rw [he]
    unfold STRING_LEN
    omega
  · intro w
    simp only [send_uevent, he]

/-- C18 at the least 32-bit integer, whose string fills the buffer: 31
characters and the terminator. -/
theorem event_string_not_truncated_witness :
    event_string (-2147483648) = "POWER_STATE_EVENT = " ++ toString (-2147483648 : Int)
      ∧ (event_string (-2147483648)).length ≤ 31
      ∧ (event_string (-2147483648)).length + 1 ≤ STRING_LEN
      ∧ ∀ w : World,
          (send_uevent w (-2147483648)).uevents
            = w.uevents ++ ["POWER_STATE_EVENT = " ++ toString (-2147483648 : Int)] :=
  event_string_not_truncated (-2147483648) (by decide) (by decide)

/-- C14, evaluated on the code: with the configuration
`[mpss, lpass, unknown-dsp]` and every platform operation succeeding,
`power_state_probe` does not return `-ENODEV` and does not leave the registry
empty.  At `remove_ss` the loop unregisters mpss and `list_del`s it; the step
to the next entry reads the `next` that `list_del` poisoned, and the body runs
on `LIST_POISON1`: the probe stops in an invalid access with lpass still
registered and subscribed.  When the unknown name is the only one, the probe
does return `-ENODEV` with an empty registry. -/
theorem unknown_name_after_known_ones :
    power_state_probe hdr (okProbe [okEntry "mpss" 10, okEntry "lpass" 11,
          okEntry "unknown-dsp" 12])
        = .oops
            { sub_sys_list :=
                [{ name := "lpass", ignore_ssr := false, enter := hdr.ADSP_BEFORE_POWERDOWN,
                   exit := hdr.ADSP_AFTER_POWERUP, rproc_handle := 11, ssr_handle := 211 }]
              ssr_calls :=
                [SsrCall.register "mpss" 210, SsrCall.register "lpass" 211,
                 SsrCall.register "unknown-dsp" 212, SsrCall.unregister 210]
              pm_notifier := true, wakeup_source := true, device := true, drvdata := false }
      ∧ (∀ p, power_state_probe hdr (okProbe [okEntry "mpss" 10, okEntry "lpass" 11,
          okEntry "unknown-dsp" 12]) ≠ .ret (-ENODEV) p)
      ∧ (∃ p, power_state_probe hdr (okProbe [okEntry "unknown-dsp" 12]) = .ret (-ENODEV) p
          ∧ p.sub_sys_list = []) := by
  have e : power_state_probe hdr (okProbe [okEntry "mpss" 10, okEntry "lpass" 11,
          okEntry "unknown-dsp" 12])
        = .oops
            { sub_sys_list :=
                [{ name := "lpass", ignore_ssr := false, enter := hdr.ADSP_BEFORE_POWERDOWN,
                   exit := hdr.ADSP_AFTER_POWERUP, rproc_handle := 11, ssr_handle := 211 }]
              ssr_calls :=
                [SsrCall.register "mpss" 210, SsrCall.register "lpass" 211,
                 SsrCall.register "unknown-dsp" 212, SsrCall.unregister 210]
              pm_notifier := true, wakeup_source := true, device := true, drvdata := false } := by
    decide
  refine ⟨e, ?_, ?_⟩
  · intro p hp
    rw [e] at hp
    exact Ending.noConfusion hp
  · exact ⟨_, rfl, rfl⟩

/-- C15, evaluated on the code: with the configuration `[unknown-dsp]` and
every platform operation succeeding, `power_state_probe` subscribes to the
crash notifications of `unknown-dsp`, finds no row for the name in
`event_data`, and returns `-ENODEV` without ever unregistering that
subscription: the entry was not yet in the list that `remove_ss` walks. -/
theorem failed_subscription_is_leaked :
    ∃ p, power_state_probe hdr (okProbe [okEntry "unknown-dsp" 12]) = .ret (-ENODEV) p
      ∧ registered p.ssr_calls = [("unknown-dsp", 212)]
      ∧ unregistered p.ssr_calls = [] :=
  ⟨_, rfl, by decide, by decide⟩

/-- C16, as stated, fails: teardown walks the registry from its first entry.
After a probe that registered `[mpss, lpass]` (subscription handles 210 and
211), the first handle `power_state_remove` unregisters is that of mpss, so
the unregister calls are not `lpass, mpss`. -/
theorem teardown_starts_with_first :
    ∃ p q, power_state_probe hdr (okProbe [okEntry "mpss" 10, okEntry "lpass" 11]) = .ret 0 p
      ∧ p.sub_sys_list.map (fun ss => ss.ssr_handle) = [210, 211]
      ∧ (power_state_remove p).reached = some q
      ∧ (unregistered q.ssr_calls).head? = some 210
      ∧ unregistered q.ssr_calls ≠ [211, 210] :=
  ⟨_, _, rfl, by decide, rfl, by decide, by decide⟩

/-- C16, amended: teardown (`power_state_remove`) and the unwinding of a failed
initialization (`remove_ss`) walk the registry `[s1, ..., sn]` from its first
entry, in registration order: the handles they unregister, in the order of
the calls, are an initial segment of those of `s1, ..., sn`, which starts with
`s1` when the registry is not empty; no subsystem is unregistered twice or
before one registered earlier.  On an empty registry no call is made, both
return (teardown 0, the unwinding its `ret`) and the registry is empty
afterwards. -/
theorem teardown_walks_forward (p : Platform) (ret : Int) :
    (p.sub_sys_list = [] →
        power_state_remove p
            = .ret 0 { p with
                sub_sys_list := [], wakeup_source := false, device := false,
                pm_notifier := false }
          ∧ remove_ss ret p
            = .ret ret { p with
                sub_sys_list := [], wakeup_source := false, pm_notifier := false })
      ∧ (∃ q handles later, (power_state_remove p).reached = some q
          ∧ q.ssr_calls = p.ssr_calls ++ handles.map SsrCall.unregister
          ∧ p.sub_sys_list.map (fun ss => ss.ssr_handle) = handles ++ later
          ∧ (p.sub_sys_list ≠ [] → handles ≠ []))
      ∧ (∃ q handles later, (remove_ss ret p).reached = some q
          ∧ q.ssr_calls = p.ssr_calls ++ handles.map SsrCall.unregister
          ∧ p.sub_sys_list.map (fun ss => ss.ssr_handle) = handles ++ later
          ∧ (p.sub_sys_list ≠ [] → handles ≠ [])) := by
  cases hl : p.sub_sys_list with
  | nil =>
    have hw := unregister_loop_nil p hl
    have e1 : power_state_remove p
        = .ret 0 { p with
            sub_sys_list := [], wakeup_source := false, device := false,
            pm_notifier := false } := by
      simp only [power_state_remove, hw]
    have e2 : remove_ss ret p
        = .ret ret { p with
            sub_sys_list := [], wakeup_source := false, pm_notifier := false } := by
      simp only [remove_ss, hw]
    refine ⟨fun _ => ⟨e1, e2⟩, ?_, ?_⟩
    · exact ⟨_, [], [], by rw [e1]; rfl, by simp, by simp, fun hne => absurd rfl hne⟩
    · exact ⟨_, [], [], by rw [e2]; rfl, by simp, by simp, fun hne => absurd rfl hne⟩
  | cons ss rest =>
    have hw := unregister_loop_cons p ss rest hl
    have e1 : power_state_remove p
        = .oops { p with
            ssr_calls := p.ssr_calls ++ [SsrCall.unregister ss.ssr_handle]
            sub_sys_list := rest } := by
      simp only [power_state_remove, hw]
    have e2 : remove_ss ret p
        = .oops { p with
            ssr_calls := p.ssr_calls ++ [SsrCall.unregister ss.ssr_handle]
            sub_sys_list := rest } := by
      simp only [remove_ss, hw]
    refine ⟨fun hc => absurd hc (by simp), ?_, ?_⟩
    · exact ⟨_, [ss.ssr_handle], rest.map (fun s => s.ssr_handle), by rw [e1]; rfl,
        by simp, by simp, fun _ => by simp⟩
    · exact ⟨_, [ss.ssr_handle], rest.map (fun s => s.ssr_handle), by rw [e2]; rfl,
        by simp, by simp, fun _ => by simp⟩

/-- C16 amended, on the registry `[mpss, lpass, cdsp]` and on the empty one:
teardown unregisters the handle of mpss first, and on the empty registry it
returns 0 without a call. -/
theorem teardown_walks_forward_witness :
    (∃ q handles later,
        (power_state_remove { Platform.fresh with sub_sys_list := registry3 }).reached = some q
          ∧ q.ssr_calls = [] ++ handles.map SsrCall.unregister
          ∧ [10, 11, 12] = handles ++ later
          ∧ (registry3 ≠ [] → handles ≠ []))
      ∧ power_state_remove Platform.fresh
          = .ret 0 { Platform.fresh with
              sub_sys_list := [], wakeup_source := false, device := false,
              pm_notifier := false } :=
  ⟨(teardown_walks_forward { Platform.fresh with sub_sys_list := registry3 } 0).2.1,
   ((teardown_walks_forward Platform.fresh 0).1 rfl).1⟩

end PowerState
